import Mathlib

/-!
# A shallow embedding of the wasmbin WebAssembly binary codec

This file embeds the core of the `wasmbin` crate (encode/decode of the
WebAssembly binary module format) and proves properties of the embedded
definitions.  Byte streams are modelled as `List Nat` (each element a byte
value `< 256`); readers are functions `List Nat → Except DecodeError (α ×
List Nat)` returning the value and the unread remainder, mirroring the
`std::io::Read`-based decoders of the crate.  Machine integers are `Nat`/`Int`
with explicit `% 2^w` where the Rust code can overflow.

Feature configuration embedded here: `lazy-blob` and `exception-handling`
are enabled; `threads`, `simd`, `tail-call`, `extended-name-section`,
`bulk-memory-operations` and `reference-types` are disabled, matching one
valid build of the crate (the claims below only mention the
exception-handling feature).
-/

namespace Wasmbin

/-- Byte sequences: each element is a byte value (`< 256` by construction). -/
abbrev Bytes := List Nat

/-- Section kinds, from the `define_sections!` invocation in `sections.rs`
(declaration order: `Custom, Type, Import, Function, Table, Memory,
Exception, Global, Export, Start, Element, DataCount, Code, Data`). -/
inductive Kind where
  | Custom
  | Type
  | Import
  | Function
  | Table
  | Memory
  | Exception
  | Global
  | Export
  | Start
  | Element
  | DataCount
  | Code
  | Data
deriving BEq, DecidableEq

/-- Wire discriminant byte of each section kind (`define_sections!`:
`Custom = 0, ..., DataCount = 12, Code = 10, Data = 11, Exception = 13`). -/
def Kind.discriminant : Kind → Nat
  | .Custom => 0
  | .Type => 1
  | .Import => 2
  | .Function => 3
  | .Table => 4
  | .Memory => 5
  | .Exception => 13
  | .Global => 6
  | .Export => 7
  | .Start => 8
  | .Element => 9
  | .DataCount => 12
  | .Code => 10
  | .Data => 11

/-- The intermediate `OrderedRepr` of `impl Ord for Kind`: position of each
kind in declaration order, ignoring the wire discriminants. -/
def Kind.orderedRepr : Kind → Nat
  | .Custom => 0
  | .Type => 1
  | .Import => 2
  | .Function => 3
  | .Table => 4
  | .Memory => 5
  | .Exception => 6
  | .Global => 7
  | .Export => 8
  | .Start => 9
  | .Element => 10
  | .DataCount => 11
  | .Code => 12
  | .Data => 13

/-- Comparison of section kinds (`impl Ord for Kind` in `sections.rs`):
compares the `OrderedRepr` values, not the wire discriminants. -/
def Kind.cmp (a b : Kind) : Ordering :=
  Ord.compare a.orderedRepr b.orderedRepr

/-- Error type of the `leb128` crate reader (`leb128::read::Error`). -/
inductive LebReadError where
  | ioError
  | overflow
deriving BEq, DecidableEq

/-- Structural path items attached to decode/visit errors (`io.rs PathItem`). -/
inductive PathItem where
  | Name (s : String)
  | Index (i : Nat)
  | Variant (s : String)
deriving BEq, DecidableEq

/-- Decode error kinds (`io.rs DecodeErrorKind`).  `Io` stands for any
underlying reader error, which in this pure model is end-of-input. -/
inductive DecodeErrorKind where
  | Io
  | Leb128 (e : LebReadError)
  | Utf8
  | UnsupportedDiscriminant (ty : String) (discriminant : Int)
  | InvalidMagic (actual : Bytes)
  | UnrecognizedData
  | SectionOutOfOrder (prev current : Kind)
deriving BEq, DecidableEq

/-- Decoding error with attached property path (`io.rs DecodeError`). -/
structure DecodeError where
  path : List PathItem
  kind : DecodeErrorKind
deriving BEq, DecidableEq

/-- Wrap an error kind with an empty path (`From<DecodeErrorKind> for DecodeError`). -/
def err (k : DecodeErrorKind) : DecodeError := ⟨[], k⟩

/-- Push a path item (`DecodeError::in_path`; Rust pushes to the end of the vector). -/
def DecodeError.inPath (e : DecodeError) (item : PathItem) : DecodeError :=
  ⟨e.path ++ [item], e.kind⟩

/-- Result of a decoder: the decoded value and the unread rest of the input. -/
abbrev DecRes (α : Type) := Except DecodeError (α × Bytes)

/-- Errors the encoders can produce (`std::io::Error` values constructed by the
crate itself: `usize::encode` on a value that does not fit `u32`, and the
section-order check of `impl Encode for [Section]`). -/
inductive EncodeError where
  | UsizeOverflow
  | SectionOutOfOrder (prev current : Kind)
deriving BEq, DecidableEq

/-- Result of an encoder: the produced bytes. -/
abbrev EncRes := Except EncodeError Bytes

/-- Decode a single byte (`impl Decode for u8`: `read_exact` of one byte). -/
def decodeU8 : Bytes → DecRes Nat
  | [] => .error (err .Io)
  | b :: rest => .ok (b, rest)

/-- Decode an optional byte (`impl Decode for Option<u8>`: zero bytes read
means end of input, yielding `None`). -/
def decodeOptionU8 : Bytes → DecRes (Option Nat)
  | [] => .ok (none, [])
  | b :: rest => .ok (some b, rest)

/-- Decode a byte vector by reading to the end of the stream
(`impl Decode for Vec<u8>`: `read_to_end`). -/
def decodeVecU8 : Bytes → DecRes Bytes :=
  fun l => .ok (l, [])

/-- Decode a fixed-size byte array (`def_byte_array!`: `read_exact`). -/
def decodeByteArray (n : Nat) (l : Bytes) : DecRes Bytes :=
  if l.length < n then .error (err .Io) else .ok (l.take n, l.drop n)

/-- Encode a single byte (`impl Encode for u8`). -/
def encodeU8 (b : Nat) : Bytes := [b]

/-- Skip the remaining continuation bytes of an over-long LEB128 sequence,
as the `leb128` crate reader does before reporting `Overflow`: `b` is the
byte just read; while it has the continuation bit, keep reading. -/
def skipContinuation : Nat → Bytes → Except DecodeError Bytes
  | b, l =>
    if b < 128 then .ok l
    else
      match l with
      | [] => .error (err (.Leb128 .ioError))
      | b2 :: rest => skipContinuation b2 rest

/-- Unsigned LEB128 reader of the `leb128` crate (`leb128::read::unsigned`):
accumulates 7-bit groups into a `u64`; at shift 63 only the final bytes
`0x00`/`0x01` are accepted, otherwise the remaining continuation bytes are
skipped and `Overflow` is reported.  End of input yields
`Error::IoError`, surfaced as `DecodeErrorKind::Leb128(ioError)`. -/
def lebReadUnsignedAux (shift acc : Nat) : Bytes → DecRes Nat
  | [] => .error (err (.Leb128 .ioError))
  | b :: rest =>
    if shift = 63 ∧ b ≠ 0 ∧ b ≠ 1 then
      match skipContinuation b rest with
      | .error e => .error e
      | .ok _ => .error (err (.Leb128 .overflow))
    else
      let acc2 := (acc + (b % 128) * 2 ^ shift) % 2 ^ 64
      if b < 128 then .ok (acc2, rest) else lebReadUnsignedAux (shift + 7) acc2 rest

/-- Convert a `u64` bit pattern to the corresponding `i64` value. -/
def toI64 (n : Nat) : Int :=
  if n < 2 ^ 63 then (n : Int) else (n : Int) - 2 ^ 64

/-- Signed LEB128 reader of the `leb128` crate (`leb128::read::signed`):
at shift 63 only final bytes `0x00`/`0x7F` are accepted; after the last
byte the result is sign-extended when the sign bit (0x40) of that byte is
set and fewer than 64 bits were read. -/
def lebReadSignedAux (shift acc : Nat) : Bytes → DecRes Int
  | [] => .error (err (.Leb128 .ioError))
  | b :: rest =>
    if shift = 63 ∧ b ≠ 0 ∧ b ≠ 0x7F then
      match skipContinuation b rest with
      | .error e => .error e
      | .ok _ => .error (err (.Leb128 .overflow))
    else
      let acc2 := (acc + (b % 128) * 2 ^ shift) % 2 ^ 64
      let shift2 := shift + 7
      if b < 128 then
        let acc3 := if shift2 < 64 ∧ 64 ≤ b % 128 then acc2 + (2 ^ 64 - 2 ^ shift2) else acc2
        .ok (toI64 acc3, rest)
      else lebReadSignedAux shift2 acc2 rest

/-- Decode a `u32` (`def_integer!(u32, unsigned)`): the reader is limited to
`size_of::<u32>() * 8 / 7 + 1 = 5` bytes via `Read::take`, then the `u64`
result is converted, failing with `Leb128(Overflow)` when it does not fit. -/
def decodeU32 (l : Bytes) : DecRes Nat :=
  match lebReadUnsignedAux 0 0 (l.take 5) with
  | .error e => .error e
  | .ok (v, rem) =>
    if v < 2 ^ 32 then .ok (v, rem ++ l.drop 5) else .error (err (.Leb128 .overflow))

/-- Decode a `u64` (`def_integer!(u64, unsigned)`): reader limited to
`64 / 7 + 1 = 10` bytes; the `u64 → u64` conversion cannot fail. -/
def decodeU64 (l : Bytes) : DecRes Nat :=
  match lebReadUnsignedAux 0 0 (l.take 10) with
  | .error e => .error e
  | .ok (v, rem) => .ok (v, rem ++ l.drop 10)

/-- Decode an `i32` (`def_integer!(i32, signed)`): reader limited to 5 bytes,
conversion from `i64` fails with `Leb128(Overflow)` outside `i32` range. -/
def decodeI32 (l : Bytes) : DecRes Int :=
  match lebReadSignedAux 0 0 (l.take 5) with
  | .error e => .error e
  | .ok (v, rem) =>
    if -(2 ^ 31) ≤ v ∧ v < 2 ^ 31 then .ok (v, rem ++ l.drop 5)
    else .error (err (.Leb128 .overflow))

/-- Decode an `i64` (`def_integer!(i64, signed)`): reader limited to 10 bytes. -/
def decodeI64 (l : Bytes) : DecRes Int :=
  match lebReadSignedAux 0 0 (l.take 10) with
  | .error e => .error e
  | .ok (v, rem) => .ok (v, rem ++ l.drop 10)

/-- Decode a `usize` (`impl Decode for usize`): decode a `u32` and convert
(the conversion cannot fail on a 64-bit platform). -/
def decodeUsize : Bytes → DecRes Nat := decodeU32

/-- Fuel-indexed unsigned LEB128 writer (the fuel is only a termination
device; `lebWriteUnsigned` supplies enough for any input). -/
def lebWriteUnsignedFuel : Nat → Nat → Bytes
  | 0, _ => []
  | fuel + 1, n =>
    let b := n % 128
    let r := n / 128
    if r = 0 then [b] else (b + 128) :: lebWriteUnsignedFuel fuel r

/-- Unsigned LEB128 writer of the `leb128` crate (`leb128::write::unsigned`). -/
def lebWriteUnsigned (n : Nat) : Bytes := lebWriteUnsignedFuel (n + 1) n

/-- Encode a `u32` (`def_integer!`: the value is widened to `u64` losslessly
and written as unsigned LEB128). -/
def encodeU32 (n : Nat) : Bytes := lebWriteUnsigned n

/-- Encode a `u64`. -/
def encodeU64 (n : Nat) : Bytes := lebWriteUnsigned n

/-- Encode a `usize` (`impl Encode for usize`): converted to `u32`, failing
with an `InvalidData` io error when it does not fit. -/
def encodeUsize (n : Nat) : EncRes :=
  if n < 2 ^ 32 then .ok (lebWriteUnsigned n) else .error .UsizeOverflow

/-- Fuel-indexed signed LEB128 writer (`leb128::write::signed`): emits the low
8 bits, arithmetic-shifts by 6 to test for termination keeping the sign bit,
then by 1 more when continuing. -/
def lebWriteSignedFuel : Nat → Int → Bytes
  | 0, _ => []
  | fuel + 1, v =>
    let byte := (v.emod 256).toNat
    let v6 := Int.ediv v 64
    if v6 = 0 ∨ v6 = -1 then [byte % 128]
    else (byte % 128 + 128) :: lebWriteSignedFuel fuel (Int.ediv v6 2)

/-- Signed LEB128 writer of the `leb128` crate; 16 rounds of fuel cover any
`i64` value (at most 10 bytes are ever produced for an `i64`). -/
def lebWriteSigned (v : Int) : Bytes := lebWriteSignedFuel 16 v

/-- Encode an `i64` (`def_integer!(i64, signed)`). -/
def encodeI64 (v : Int) : Bytes := lebWriteSigned v

/-- Encode an `i32` (`def_integer!(i32, signed)`: widened to `i64` losslessly). -/
def encodeI32 (v : Int) : Bytes := lebWriteSigned v

/-- Little-endian byte serialization of an `n`-byte integer. -/
def leBytes : Nat → Nat → Bytes
  | 0, _ => []
  | k + 1, v => v % 256 :: leBytes k (v / 256)

/-- Read back a little-endian byte sequence as an integer. -/
def fromLeBytes : Bytes → Nat
  | [] => 0
  | b :: rest => b + 256 * fromLeBytes rest

/-- Attach a path item to the error of a decode result (`map_err(err.in_path(..))`). -/
def inPathE (item : PathItem) : DecRes α → DecRes α
  | .error e => .error (e.inPath item)
  | .ok v => .ok v

/-- Attach a path item to the error of a maybe-decode result. -/
def inPathO (item : PathItem) :
    Except DecodeError (Option (α × Bytes)) → Except DecodeError (Option (α × Bytes))
  | .error e => .error (e.inPath item)
  | .ok v => .ok v

/-- Build an `UnsupportedDiscriminant` error (type names are abbreviated
relative to Rust's fully qualified `std::any::type_name`). -/
def unsupported (ty : String) (d : Int) : DecodeError :=
  err (.UnsupportedDiscriminant ty d)

/-- Decode `n` consecutive items (the counted part of `DecodeAsIter` for
`WasmbinCountable` element types in `collections.rs`). -/
def decodeItems (dec : Bytes → DecRes α) : Nat → Bytes → DecRes (List α)
  | 0, l => .ok ([], l)
  | n + 1, l =>
    match dec l with
    | .error e => .error e
    | .ok (v, l1) =>
      match decodeItems dec n l1 with
      | .error e => .error e
      | .ok (vs, l2) => .ok (v :: vs, l2)

/-- Decode a count-prefixed vector (`impl Decode for Vec<T>` via
`DecodeAsIter` for countable `T`: a `u32` count, then that many items). -/
def decodeVecCountable (dec : Bytes → DecRes α) (l : Bytes) : DecRes (List α) :=
  match decodeU32 l with
  | .error e => .error e
  | .ok (n, l1) => decodeItems dec n l1

/-- Concatenate the encodings of a list of items. -/
def encodeList (enc : α → EncRes) : List α → EncRes
  | [] => .ok []
  | v :: rest => do
    let h ← enc v
    let t ← encodeList enc rest
    .ok (h ++ t)

/-- Encode a count-prefixed vector (`impl Encode for [T]` for countable `T`:
the length as `usize`, then each item). -/
def encodeVecCountable (enc : α → EncRes) (l : List α) : EncRes := do
  let countBytes ← encodeUsize l.length
  let items ← encodeList enc l
  .ok (countBytes ++ items)

/-- Decode a length-framed region (`impl WasmbinDecode for RawBlob<T>` in
`blob.rs`): read a `u32` size, limit the reader to that many bytes
(`Read::take`), run the payload decoder, and fail with `UnrecognizedData`
when the framed region was not fully consumed (`taken.limit() != 0`). -/
def decodeFramed (dec : Bytes → DecRes α) (l : Bytes) : DecRes α :=
  match decodeU32 l with
  | .error e => .error e
  | .ok (size, l1) =>
    let frame := l1.take size
    match dec frame with
    | .error e => .error e
    | .ok (v, rest) =>
      if rest.isEmpty ∧ frame.length = size then .ok (v, l1.drop size)
      else .error (err .UnrecognizedData)

/-- Encode a length-framed byte region (`impl WasmbinEncode for RawBlob<T>`:
the byte length as `usize`, then the bytes). -/
def encodeFramed (content : Bytes) : EncRes := do
  let lenBytes ← encodeUsize content.length
  .ok (lenBytes ++ content)

/-- UTF-8 continuation byte test (`0x80..=0xBF`). -/
def isCont (b : Nat) : Bool := 128 ≤ b && b < 192

/-- UTF-8 validity of a byte sequence, as checked by Rust's
`String::from_utf8` (the standard UTF-8 automaton, rejecting overlong
encodings, surrogates and values above U+10FFFF). -/
def validUtf8 : Bytes → Bool
  | [] => true
  | b :: rest =>
    if b < 0x80 then validUtf8 rest
    else if b < 0xC2 then false
    else if b ≤ 0xDF then
      match rest with
      | b2 :: r => isCont b2 && validUtf8 r
      | [] => false
    else if b = 0xE0 then
      match rest with
      | b2 :: b3 :: r => (0xA0 ≤ b2 && b2 ≤ 0xBF) && isCont b3 && validUtf8 r
      | _ => false
    else if b ≤ 0xEC then
      match rest with
      | b2 :: b3 :: r => isCont b2 && isCont b3 && validUtf8 r
      | _ => false
    else if b = 0xED then
      match rest with
      | b2 :: b3 :: r => (0x80 ≤ b2 && b2 ≤ 0x9F) && isCont b3 && validUtf8 r
      | _ => false
    else if b ≤ 0xEF then
      match rest with
      | b2 :: b3 :: r => isCont b2 && isCont b3 && validUtf8 r
      | _ => false
    else if b = 0xF0 then
      match rest with
      | b2 :: b3 :: b4 :: r => (0x90 ≤ b2 && b2 ≤ 0xBF) && isCont b3 && isCont b4 && validUtf8 r
      | _ => false
    else if b ≤ 0xF3 then
      match rest with
      | b2 :: b3 :: b4 :: r => isCont b2 && isCont b3 && isCont b4 && validUtf8 r
      | _ => false
    else if b = 0xF4 then
      match rest with
      | b2 :: b3 :: b4 :: r => (0x80 ≤ b2 && b2 ≤ 0x8F) && isCont b3 && isCont b4 && validUtf8 r
      | _ => false
    else false

/-- Rust `String` (as used by the crate): its UTF-8 byte content.  Values
constructed by Rust code always hold valid UTF-8; the decoder checks this. -/
structure Str where
  bytes : Bytes
deriving BEq, DecidableEq

/-- Decode a length-prefixed UTF-8 string (`impl Decode for String`:
a `RawBlob` of bytes, then `String::from_utf8`, failing with `Utf8`). -/
def decodeStr (l : Bytes) : DecRes Str :=
  match decodeFramed decodeVecU8 l with
  | .error e => .error e
  | .ok (bs, rest) =>
    if validUtf8 bs then .ok (⟨bs⟩, rest) else .error (err .Utf8)

/-- Encode a string (`impl Encode for str`: a length-framed byte region). -/
def encodeStr (s : Str) : EncRes := encodeFramed s.bytes

/-- NaN test for an `f32` bit pattern (exponent all ones, mantissa nonzero). -/
def isNan32 (p : Nat) : Bool := 0x7F800000 < p % 2 ^ 31

/-- NaN test for an `f64` bit pattern. -/
def isNan64 (p : Nat) : Bool := 0x7FF0000000000000 < p % 2 ^ 63

/-- Rust `f32` equality (`==` on floats, IEEE-754): false when either side is
NaN; `+0.0 == -0.0`; otherwise equal bit patterns. -/
def f32RustEq (a b : Nat) : Bool :=
  if isNan32 a || isNan32 b then false
  else a == b || (a % 2 ^ 31 == 0 && b % 2 ^ 31 == 0)

/-- Rust `f64` equality. -/
def f64RustEq (a b : Nat) : Bool :=
  if isNan64 a || isNan64 b then false
  else a == b || (a % 2 ^ 63 == 0 && b % 2 ^ 63 == 0)

/-- The `FloatConst<f32>` wrapper from `floats.rs`; `value` is the `f32`
bit pattern. -/
structure FloatConst32 where
  value : Nat
deriving DecidableEq

/-- The `FloatConst<f64>` wrapper; `value` is the `f64` bit pattern. -/
structure FloatConst64 where
  value : Nat
deriving DecidableEq

/-- `PartialEq for FloatConst<f32>`: float equality, or both values NaN. -/
def floatConst32Beq (a b : FloatConst32) : Bool :=
  f32RustEq a.value b.value || (isNan32 a.value && isNan32 b.value)

instance : BEq FloatConst32 := ⟨floatConst32Beq⟩

/-- `PartialEq for FloatConst<f64>`: float equality, or both values NaN. -/
def floatConst64Beq (a b : FloatConst64) : Bool :=
  f64RustEq a.value b.value || (isNan64 a.value && isNan64 b.value)

instance : BEq FloatConst64 := ⟨floatConst64Beq⟩

/-- The byte stream that `Hash for FloatConst<f32>` feeds to the hasher:
`self.value.to_ne_bytes()`, i.e. the raw bit pattern in native (little-endian
on the supported platforms) byte order. -/
def floatConst32HashBytes (c : FloatConst32) : Bytes := leBytes 4 c.value

/-- The byte stream that `Hash for FloatConst<f64>` feeds to the hasher. -/
def floatConst64HashBytes (c : FloatConst64) : Bytes := leBytes 8 c.value

/-- Encode an `f32` (`def_float!`: `to_le_bytes`). -/
def encodeF32 (p : Nat) : Bytes := leBytes 4 p

/-- Decode an `f32` (`def_float!`: read 4 bytes, `from_le_bytes`). -/
def decodeF32 (l : Bytes) : DecRes Nat :=
  match decodeByteArray 4 l with
  | .error e => .error e
  | .ok (bs, rest) => .ok (fromLeBytes bs, rest)

/-- Encode an `f64`. -/
def encodeF64 (p : Nat) : Bytes := leBytes 8 p

/-- Decode an `f64`. -/
def decodeF64 (l : Bytes) : DecRes Nat :=
  match decodeByteArray 8 l with
  | .error e => .error e
  | .ok (bs, rest) => .ok (fromLeBytes bs, rest)

/-- Decode a `FloatConst<f32>` (derived: the single `value` field, with the
field path attached on error). -/
def decodeFloatConst32 (l : Bytes) : DecRes FloatConst32 :=
  inPathE (.Variant "FloatConst") <|
    match inPathE (.Name "value") (decodeF32 l) with
    | .error e => .error e
    | .ok (p, rest) => .ok (⟨p⟩, rest)

/-- Decode a `FloatConst<f64>`. -/
def decodeFloatConst64 (l : Bytes) : DecRes FloatConst64 :=
  inPathE (.Variant "FloatConst") <|
    match inPathE (.Name "value") (decodeF64 l) with
    | .error e => .error e
    | .ok (p, rest) => .ok (⟨p⟩, rest)

/-- Encode a `FloatConst<f32>` (derived: just the `value` field). -/
def encodeFloatConst32 (c : FloatConst32) : Bytes := encodeF32 c.value

/-- Encode a `FloatConst<f64>`. -/
def encodeFloatConst64 (c : FloatConst64) : Bytes := encodeF64 c.value

/-- Index newtypes from `indices.rs` (`new_type_id!`): a `u32` index.  All
nine id types share this shape; they are embedded as distinct structures. -/
structure TypeId where
  index : Nat
deriving BEq, DecidableEq

structure FuncId where
  index : Nat
deriving BEq, DecidableEq

structure TableId where
  index : Nat
deriving BEq, DecidableEq

structure MemId where
  index : Nat
deriving BEq, DecidableEq

structure GlobalId where
  index : Nat
deriving BEq, DecidableEq

structure LocalId where
  index : Nat
deriving BEq, DecidableEq

structure LabelId where
  index : Nat
deriving BEq, DecidableEq

structure ElemId where
  index : Nat
deriving BEq, DecidableEq

structure DataId where
  index : Nat
deriving BEq, DecidableEq

/-- Modelled from the spec: `ExceptionId`, the index type used by the
`exception-handling` feature (`ExportDesc::Exception`); `indices.rs` in the
snapshot omits the feature-gated declaration, but the spec fixes descriptor
`0x04` to an exception index with the same `new_type_id!` shape. -/
structure ExceptionId where
  index : Nat
deriving BEq, DecidableEq

/-- Decode an id newtype: the derived decoder reads the wrapped `u32` with
the derived error paths (`Name("index")`, then the struct name). -/
def decodeIdAux (ty : String) (mk : Nat → α) (l : Bytes) : DecRes α :=
  inPathE (.Variant ty) <|
    match inPathE (.Name "index") (decodeU32 l) with
    | .error e => .error e
    | .ok (n, rest) => .ok (mk n, rest)

def decodeTypeId : Bytes → DecRes TypeId := decodeIdAux "TypeId" TypeId.mk

def decodeFuncId : Bytes → DecRes FuncId := decodeIdAux "FuncId" FuncId.mk

def decodeTableId : Bytes → DecRes TableId := decodeIdAux "TableId" TableId.mk

def decodeMemId : Bytes → DecRes MemId := decodeIdAux "MemId" MemId.mk

def decodeGlobalId : Bytes → DecRes GlobalId := decodeIdAux "GlobalId" GlobalId.mk

def decodeLocalId : Bytes → DecRes LocalId := decodeIdAux "LocalId" LocalId.mk

def decodeLabelId : Bytes → DecRes LabelId := decodeIdAux "LabelId" LabelId.mk

def decodeExceptionId : Bytes → DecRes ExceptionId := decodeIdAux "ExceptionId" ExceptionId.mk

/-- Encode an id newtype: the wrapped `u32`. -/
def encodeIndex (n : Nat) : Bytes := encodeU32 n

/-- Reference types (`types.rs RefType`); `ExternRef` embeds the Rust
variant named after external references. -/
inductive RefType where
  | Func
  | ExternRef
deriving BEq, DecidableEq

/-- `RefType::maybe_decode_with_discriminant` (derived; `Func = 0x70`,
extern references `= 0x6F`; no catch-all). -/
def maybeDecodeRefType (d : Nat) (l : Bytes) : Except DecodeError (Option (RefType × Bytes)) :=
  match d with
  | 0x70 => .ok (some (.Func, l))
  | 0x6F => .ok (some (.ExternRef, l))
  | _ => .ok none

/-- `RefType::decode`: read the discriminant byte and dispatch, failing with
`UnsupportedDiscriminant` when no variant matches. -/
def decodeRefType (l : Bytes) : DecRes RefType :=
  match decodeU8 l with
  | .error e => .error e
  | .ok (d, l1) =>
    match maybeDecodeRefType d l1 with
    | .error e => .error e
    | .ok (some (v, l2)) => .ok (v, l2)
    | .ok none => .error (unsupported "RefType" d)

def encodeRefType : RefType → Bytes
  | .Func => [0x70]
  | .ExternRef => [0x6F]

/-- Value types (`types.rs ValueType`); `Ref` is the catch-all variant
holding a `RefType`. -/
inductive ValueType where
  | V128
  | F64
  | F32
  | I64
  | I32
  | Ref (r : RefType)
deriving BEq, DecidableEq

/-- `ValueType::maybe_decode_with_discriminant`: the declared discriminants
`0x7B..0x7F`, then the catch-all delegating to `RefType`. -/
def maybeDecodeValueType (d : Nat) (l : Bytes) : Except DecodeError (Option (ValueType × Bytes)) :=
  match d with
  | 0x7B => .ok (some (.V128, l))
  | 0x7C => .ok (some (.F64, l))
  | 0x7D => .ok (some (.F32, l))
  | 0x7E => .ok (some (.I64, l))
  | 0x7F => .ok (some (.I32, l))
  | _ =>
    match maybeDecodeRefType d l with
    | .error e => .error e
    | .ok (some (r, l1)) => .ok (some (.Ref r, l1))
    | .ok none => .ok none

def decodeValueType (l : Bytes) : DecRes ValueType :=
  match decodeU8 l with
  | .error e => .error e
  | .ok (d, l1) =>
    match maybeDecodeValueType d l1 with
    | .error e => .error e
    | .ok (some (v, l2)) => .ok (v, l2)
    | .ok none => .error (unsupported "ValueType" d)

def encodeValueType : ValueType → Bytes
  | .V128 => [0x7B]
  | .F64 => [0x7C]
  | .F32 => [0x7D]
  | .I64 => [0x7E]
  | .I32 => [0x7F]
  | .Ref r => encodeRefType r

/-- Block types (`types.rs BlockType`). -/
inductive BlockType where
  | Empty
  | Value (t : ValueType)
  | MultiValue (id : TypeId)
deriving BEq, DecidableEq

/-- `BlockType::decode` (hand-written in `types.rs`): `0x40` is `Empty`;
otherwise try a `ValueType` with the already-read discriminant; otherwise
re-parse from the original position as a positive `s33` (an `i64` LEB128
converted to `u32`, failing with `Leb128(Overflow)` when out of range). -/
def decodeBlockType (l : Bytes) : DecRes BlockType :=
  match decodeU8 l with
  | .error e => .error e
  | .ok (d, l1) =>
    if d = 0x40 then .ok (.Empty, l1)
    else
      match maybeDecodeValueType d l1 with
      | .error e => .error (e.inPath (.Variant "BlockType::Value"))
      | .ok (some (ty, l2)) => .ok (.Value ty, l2)
      | .ok none =>
        match decodeI64 l with
        | .error e => .error (e.inPath (.Variant "BlockType::MultiValue"))
        | .ok (v, l2) =>
          if 0 ≤ v ∧ v < 2 ^ 32 then .ok (.MultiValue ⟨v.toNat⟩, l2)
          else .error ((err (.Leb128 .overflow)).inPath (.Variant "BlockType::MultiValue"))

/-- `BlockType::encode`: `Empty` is `0x40`, a value type encodes itself, and
a type index encodes as a signed LEB128 of the index. -/
def encodeBlockType : BlockType → Bytes
  | .Empty => [0x40]
  | .Value ty => encodeValueType ty
  | .MultiValue id => encodeI64 (id.index : Int)

/-- Limits (`types.rs Limits`). -/
structure Limits where
  min : Nat
  max : Option Nat
deriving BEq, DecidableEq

/-- `Limits::decode` via the `LimitsRepr` enum (`Min = 0x00`,
`MinMax = 0x01`; any other discriminant is unsupported). -/
def decodeLimits (l : Bytes) : DecRes Limits :=
  match decodeU8 l with
  | .error e => .error e
  | .ok (d, l1) =>
    match d with
    | 0x00 =>
      inPathE (.Variant "LimitsRepr::Min") <|
        match inPathE (.Name "min") (decodeU32 l1) with
        | .error e => .error e
        | .ok (mn, l2) => .ok ({ min := mn, max := none }, l2)
    | 0x01 =>
      inPathE (.Variant "LimitsRepr::MinMax") <|
        match inPathE (.Name "min") (decodeU32 l1) with
        | .error e => .error e
        | .ok (mn, l2) =>
          match inPathE (.Name "max") (decodeU32 l2) with
          | .error e => .error e
          | .ok (mx, l3) => .ok ({ min := mn, max := some mx }, l3)
    | _ => .error (unsupported "LimitsRepr" d)

def encodeLimits (lim : Limits) : Bytes :=
  match lim.max with
  | none => 0x00 :: encodeU32 lim.min
  | some mx => 0x01 :: (encodeU32 lim.min ++ encodeU32 mx)

/-- Memory types (`types.rs MemType`, `threads` feature disabled: just the
limits, encoded by the derived struct codec). -/
structure MemType where
  limits : Limits
deriving BEq, DecidableEq

def decodeMemType (l : Bytes) : DecRes MemType :=
  inPathE (.Variant "MemType") <|
    match inPathE (.Name "limits") (decodeLimits l) with
    | .error e => .error e
    | .ok (lim, rest) => .ok (⟨lim⟩, rest)

def encodeMemType (m : MemType) : Bytes := encodeLimits m.limits

/-- Global types (`types.rs GlobalType`). -/
structure GlobalType where
  value_type : ValueType
  mutable : Bool
deriving BEq, DecidableEq

/-- `bool::decode` via `BoolRepr` (`False = 0x00`, `True = 0x01`, anything
else is an unsupported discriminant). -/
def decodeBool (l : Bytes) : DecRes Bool :=
  match decodeU8 l with
  | .error e => .error e
  | .ok (d, l1) =>
    match d with
    | 0x00 => .ok (false, l1)
    | 0x01 => .ok (true, l1)
    | _ => .error (unsupported "BoolRepr" d)

def encodeBool (b : Bool) : Bytes := if b then [0x01] else [0x00]

def decodeGlobalType (l : Bytes) : DecRes GlobalType :=
  inPathE (.Variant "GlobalType") <|
    match inPathE (.Name "value_type") (decodeValueType l) with
    | .error e => .error e
    | .ok (vt, l1) =>
      match inPathE (.Name "mutable") (decodeBool l1) with
      | .error e => .error e
      | .ok (mu, l2) => .ok ({ value_type := vt, mutable := mu }, l2)

def encodeGlobalType (g : GlobalType) : Bytes :=
  encodeValueType g.value_type ++ encodeBool g.mutable

/-- Table types (`types.rs TableType`). -/
structure TableType where
  elem_type : RefType
  limits : Limits
deriving BEq, DecidableEq

def decodeTableType (l : Bytes) : DecRes TableType :=
  inPathE (.Variant "TableType") <|
    match inPathE (.Name "elem_type") (decodeRefType l) with
    | .error e => .error e
    | .ok (et, l1) =>
      match inPathE (.Name "limits") (decodeLimits l1) with
      | .error e => .error e
      | .ok (lim, l2) => .ok ({ elem_type := et, limits := lim }, l2)

def encodeTableType (t : TableType) : Bytes :=
  encodeRefType t.elem_type ++ encodeLimits t.limits

/-- Function types (`types.rs FuncType`, struct discriminant `0x60`). -/
structure FuncType where
  params : List ValueType
  results : List ValueType
deriving BEq, DecidableEq

def decodeFuncType (l : Bytes) : DecRes FuncType :=
  match decodeU8 l with
  | .error e => .error e
  | .ok (d, l1) =>
    if d = 0x60 then
      inPathE (.Variant "FuncType") <|
        match inPathE (.Name "params") (decodeVecCountable decodeValueType l1) with
        | .error e => .error e
        | .ok (ps, l2) =>
          match inPathE (.Name "results") (decodeVecCountable decodeValueType l2) with
          | .error e => .error e
          | .ok (rs, l3) => .ok ({ params := ps, results := rs }, l3)
    else .error (unsupported "FuncType" d)

def encodeFuncType (f : FuncType) : EncRes := do
  let ps ← encodeVecCountable (fun v => .ok (encodeValueType v)) f.params
  let rs ← encodeVecCountable (fun v => .ok (encodeValueType v)) f.results
  .ok (0x60 :: (ps ++ rs))

/-- Exception types (`types.rs ExceptionType`, `exception-handling` feature,
struct discriminant `0x00`). -/
structure ExceptionType where
  func_type : FuncType
deriving BEq, DecidableEq

def decodeExceptionType (l : Bytes) : DecRes ExceptionType :=
  match decodeU8 l with
  | .error e => .error e
  | .ok (d, l1) =>
    if d = 0x00 then
      inPathE (.Variant "ExceptionType") <|
        match inPathE (.Name "func_type") (decodeFuncType l1) with
        | .error e => .error e
        | .ok (ft, l2) => .ok (⟨ft⟩, l2)
    else .error (unsupported "ExceptionType" d)

def encodeExceptionType (e : ExceptionType) : EncRes := do
  let ft ← encodeFuncType e.func_type
  .ok (0x00 :: ft)

/-- Memory access arguments (`instructions/mod.rs MemArg`). -/
structure MemArg where
  align : Nat
  offset : Nat
deriving BEq, DecidableEq

def decodeMemArg (l : Bytes) : DecRes MemArg :=
  inPathE (.Variant "MemArg") <|
    match inPathE (.Name "align") (decodeU32 l) with
    | .error e => .error e
    | .ok (a, l1) =>
      match inPathE (.Name "offset") (decodeU32 l1) with
      | .error e => .error e
      | .ok (o, l2) => .ok ({ align := a, offset := o }, l2)

def encodeMemArg (m : MemArg) : Bytes := encodeU32 m.align ++ encodeU32 m.offset

/-- Indirect call operands (`instructions/mod.rs CallIndirect`). -/
structure CallIndirect where
  ty : TypeId
  table : TableId
deriving BEq, DecidableEq

def decodeCallIndirect (l : Bytes) : DecRes CallIndirect :=
  inPathE (.Variant "CallIndirect") <|
    match inPathE (.Name "ty") (decodeTypeId l) with
    | .error e => .error e
    | .ok (t, l1) =>
      match inPathE (.Name "table") (decodeTableId l1) with
      | .error e => .error e
      | .ok (tb, l2) => .ok ({ ty := t, table := tb }, l2)

def encodeCallIndirect (c : CallIndirect) : Bytes :=
  encodeIndex c.ty.index ++ encodeIndex c.table.index

/-- The `Misc` (`0xFC`-prefixed) opcode group (`instructions/misc.rs`,
`bulk-memory-operations` and `reference-types` features disabled), with a
`u32` LEB128 discriminant. -/
inductive Misc where
  | I32TruncSatF32S
  | I32TruncSatF32U
  | I32TruncSatF64S
  | I32TruncSatF64U
  | I64TruncSatF32S
  | I64TruncSatF32U
  | I64TruncSatF64S
  | I64TruncSatF64U
deriving BEq, DecidableEq

/-- `Misc::decode`: a `u32` LEB128 discriminant, then dispatch. -/
def decodeMisc (l : Bytes) : DecRes Misc :=
  match decodeU32 l with
  | .error e => .error e
  | .ok (d, l1) =>
    match d with
    | 0x00 => .ok (.I32TruncSatF32S, l1)
    | 0x01 => .ok (.I32TruncSatF32U, l1)
    | 0x02 => .ok (.I32TruncSatF64S, l1)
    | 0x03 => .ok (.I32TruncSatF64U, l1)
    | 0x04 => .ok (.I64TruncSatF32S, l1)
    | 0x05 => .ok (.I64TruncSatF32U, l1)
    | 0x06 => .ok (.I64TruncSatF64S, l1)
    | 0x07 => .ok (.I64TruncSatF64U, l1)
    | _ => .error (unsupported "Misc" d)

def Misc.discriminant : Misc → Nat
  | .I32TruncSatF32S => 0x00
  | .I32TruncSatF32U => 0x01
  | .I32TruncSatF64S => 0x02
  | .I32TruncSatF64U => 0x03
  | .I64TruncSatF32S => 0x04
  | .I64TruncSatF32U => 0x05
  | .I64TruncSatF64S => 0x06
  | .I64TruncSatF64U => 0x07

def encodeMisc (m : Misc) : Bytes := encodeU32 m.discriminant

set_option maxHeartbeats 3200000 in
/-- The core instruction set (`instructions/mod.rs Instruction`;
`tail-call`, `simd` and `threads` features disabled). -/
inductive Instruction where
  | Unreachable
  | Nop
  | BlockStart (bt : BlockType)
  | LoopStart (bt : BlockType)
  | IfStart (bt : BlockType)
  | IfElse
  | End
  | Br (l : LabelId)
  | BrIf (l : LabelId)
  | BrTable (branches : List LabelId) (otherwise : LabelId)
  | Return
  | Call (f : FuncId)
  | CallIndirect (c : CallIndirect)
  | Drop
  | Select
  | SelectWithTypes (ts : List ValueType)
  | LocalGet (l : LocalId)
  | LocalSet (l : LocalId)
  | LocalTee (l : LocalId)
  | GlobalGet (g : GlobalId)
  | GlobalSet (g : GlobalId)
  | TableGet (t : TableId)
  | TableSet (t : TableId)
  | I32Load (m : MemArg)
  | I64Load (m : MemArg)
  | F32Load (m : MemArg)
  | F64Load (m : MemArg)
  | I32Load8S (m : MemArg)
  | I32Load8U (m : MemArg)
  | I32Load16S (m : MemArg)
  | I32Load16U (m : MemArg)
  | I64Load8S (m : MemArg)
  | I64Load8U (m : MemArg)
  | I64Load16S (m : MemArg)
  | I64Load16U (m : MemArg)
  | I64Load32S (m : MemArg)
  | I64Load32U (m : MemArg)
  | I32Store (m : MemArg)
  | I64Store (m : MemArg)
  | F32Store (m : MemArg)
  | F64Store (m : MemArg)
  | I32Store8 (m : MemArg)
  | I32Store16 (m : MemArg)
  | I64Store8 (m : MemArg)
  | I64Store16 (m : MemArg)
  | I64Store32 (m : MemArg)
  | MemorySize (m : MemId)
  | MemoryGrow (m : MemId)
  | I32Const (v : Int)
  | I64Const (v : Int)
  | F32Const (c : FloatConst32)
  | F64Const (c : FloatConst64)
  | I32Eqz
  | I32Eq
  | I32Ne
  | I32LtS
  | I32LtU
  | I32GtS
  | I32GtU
  | I32LeS
  | I32LeU
  | I32GeS
  | I32GeU
  | I64Eqz
  | I64Eq
  | I64Ne
  | I64LtS
  | I64LtU
  | I64GtS
  | I64GtU
  | I64LeS
  | I64LeU
  | I64GeS
  | I64GeU
  | F32Eq
  | F32Ne
  | F32Lt
  | F32Gt
  | F32Le
  | F32Ge
  | F64Eq
  | F64Ne
  | F64Lt
  | F64Gt
  | F64Le
  | F64Ge
  | I32Clz
  | I32Ctz
  | I32PopCnt
  | I32Add
  | I32Sub
  | I32Mul
  | I32DivS
  | I32DivU
  | I32RemS
  | I32RemU
  | I32And
  | I32Or
  | I32Xor
  | I32Shl
  | I32ShrS
  | I32ShrU
  | I32RotL
  | I32RotR
  | I64Clz
  | I64Ctz
  | I64PopCnt
  | I64Add
  | I64Sub
  | I64Mul
  | I64DivS
  | I64DivU
  | I64RemS
  | I64RemU
  | I64And
  | I64Or
  | I64Xor
  | I64Shl
  | I64ShrS
  | I64ShrU
  | I64RotL
  | I64RotR
  | F32Abs
  | F32Neg
  | F32Ceil
  | F32Floor
  | F32Trunc
  | F32Nearest
  | F32Sqrt
  | F32Add
  | F32Sub
  | F32Mul
  | F32Div
  | F32Min
  | F32Max
  | F32CopySign
  | F64Abs
  | F64Neg
  | F64Ceil
  | F64Floor
  | F64Trunc
  | F64Nearest
  | F64Sqrt
  | F64Add
  | F64Sub
  | F64Mul
  | F64Div
  | F64Min
  | F64Max
  | F64CopySign
  | I32WrapI64
  | I32TruncF32S
  | I32TruncF332U
  | I32TruncF64S
  | I32TruncF64U
  | I64ExtendI32S
  | I64ExtendI32U
  | I64TruncF32S
  | I64TruncF32U
  | I64TruncF64S
  | I64TruncF64U
  | F32ConvertI32S
  | F32ConvertI32U
  | F32ConvertI64S
  | F32ConvertI64U
  | F32DemoteF64
  | F64ConvertI32S
  | F64ConvertI32U
  | F64ConvertI64S
  | F64ConvertI64U
  | F64PromoteF32
  | I32ReinterpretF32
  | I64ReinterpretF64
  | F32ReinterpretI32
  | F64ReinterpretI64
  | I32Extend8S
  | I32Extend16S
  | I64Extend8S
  | I64Extend16S
  | I64Extend32S
  | RefNull (r : RefType)
  | RefIsNull
  | RefFunc (f : FuncId)
  | Misc (m : Misc)
deriving BEq

/-- Decode helper for a newtype-like instruction variant: decode the single
payload and wrap errors in the variant path, as the derive does. -/
def ntI (vname : String) (mk : α → Instruction) (dec : Bytes → DecRes α) (l : Bytes) :
    Except DecodeError (Option (Instruction × Bytes)) :=
  match dec l with
  | .error e => .error (e.inPath (.Variant vname))
  | .ok (v, rest) => .ok (some (mk v, rest))

/-- `Instruction::maybe_decode_with_discriminant` (derived): dispatch on the
opcode byte, decoding the payload fields of the matching variant. -/
def maybeDecodeInstr (d : Nat) (l : Bytes) : Except DecodeError (Option (Instruction × Bytes)) :=
  match d with
  | 0x00 => .ok (some (.Unreachable, l))
  | 0x01 => .ok (some (.Nop, l))
  | 0x02 => ntI "Instruction::BlockStart" Instruction.BlockStart decodeBlockType l
  | 0x03 => ntI "Instruction::LoopStart" Instruction.LoopStart decodeBlockType l
  | 0x04 => ntI "Instruction::IfStart" Instruction.IfStart decodeBlockType l
  | 0x05 => .ok (some (.IfElse, l))
  | 0x0B => .ok (some (.End, l))
  | 0x0C => ntI "Instruction::Br" Instruction.Br decodeLabelId l
  | 0x0D => ntI "Instruction::BrIf" Instruction.BrIf decodeLabelId l
  | 0x0E =>
    inPathO (.Variant "Instruction::BrTable") <|
      match inPathE (.Name "branches") (decodeVecCountable decodeLabelId l) with
      | .error e => .error e
      | .ok (bs, l1) =>
        match inPathE (.Name "otherwise") (decodeLabelId l1) with
        | .error e => .error e
        | .ok (ot, l2) => .ok (some (.BrTable bs ot, l2))
  | 0x0F => .ok (some (.Return, l))
  | 0x10 => ntI "Instruction::Call" Instruction.Call decodeFuncId l
  | 0x11 => ntI "Instruction::CallIndirect" Instruction.CallIndirect decodeCallIndirect l
  | 0x1A => .ok (some (.Drop, l))
  | 0x1B => .ok (some (.Select, l))
  | 0x1C => ntI "Instruction::SelectWithTypes" Instruction.SelectWithTypes
      (decodeVecCountable decodeValueType) l
  | 0x20 => ntI "Instruction::LocalGet" Instruction.LocalGet decodeLocalId l
  | 0x21 => ntI "Instruction::LocalSet" Instruction.LocalSet decodeLocalId l
  | 0x22 => ntI "Instruction::LocalTee" Instruction.LocalTee decodeLocalId l
  | 0x23 => ntI "Instruction::GlobalGet" Instruction.GlobalGet decodeGlobalId l
  | 0x24 => ntI "Instruction::GlobalSet" Instruction.GlobalSet decodeGlobalId l
  | 0x25 => ntI "Instruction::TableGet" Instruction.TableGet decodeTableId l
  | 0x26 => ntI "Instruction::TableSet" Instruction.TableSet decodeTableId l
  | 0x28 => ntI "Instruction::I32Load" Instruction.I32Load decodeMemArg l
  | 0x29 => ntI "Instruction::I64Load" Instruction.I64Load decodeMemArg l
  | 0x2A => ntI "Instruction::F32Load" Instruction.F32Load decodeMemArg l
  | 0x2B => ntI "Instruction::F64Load" Instruction.F64Load decodeMemArg l
  | 0x2C => ntI "Instruction::I32Load8S" Instruction.I32Load8S decodeMemArg l
  | 0x2D => ntI "Instruction::I32Load8U" Instruction.I32Load8U decodeMemArg l
  | 0x2E => ntI "Instruction::I32Load16S" Instruction.I32Load16S decodeMemArg l
  | 0x2F => ntI "Instruction::I32Load16U" Instruction.I32Load16U decodeMemArg l
  | 0x30 => ntI "Instruction::I64Load8S" Instruction.I64Load8S decodeMemArg l
  | 0x31 => ntI "Instruction::I64Load8U" Instruction.I64Load8U decodeMemArg l
  | 0x32 => ntI "Instruction::I64Load16S" Instruction.I64Load16S decodeMemArg l
  | 0x33 => ntI "Instruction::I64Load16U" Instruction.I64Load16U decodeMemArg l
  | 0x34 => ntI "Instruction::I64Load32S" Instruction.I64Load32S decodeMemArg l
  | 0x35 => ntI "Instruction::I64Load32U" Instruction.I64Load32U decodeMemArg l
  | 0x36 => ntI "Instruction::I32Store" Instruction.I32Store decodeMemArg l
  | 0x37 => ntI "Instruction::I64Store" Instruction.I64Store decodeMemArg l
  | 0x38 => ntI "Instruction::F32Store" Instruction.F32Store decodeMemArg l
  | 0x39 => ntI "Instruction::F64Store" Instruction.F64Store decodeMemArg l
  | 0x3A => ntI "Instruction::I32Store8" Instruction.I32Store8 decodeMemArg l
  | 0x3B => ntI "Instruction::I32Store16" Instruction.I32Store16 decodeMemArg l
  | 0x3C => ntI "Instruction::I64Store8" Instruction.I64Store8 decodeMemArg l
  | 0x3D => ntI "Instruction::I64Store16" Instruction.I64Store16 decodeMemArg l
  | 0x3E => ntI "Instruction::I64Store32" Instruction.I64Store32 decodeMemArg l
  | 0x3F => ntI "Instruction::MemorySize" Instruction.MemorySize decodeMemId l
  | 0x40 => ntI "Instruction::MemoryGrow" Instruction.MemoryGrow decodeMemId l
  | 0x41 => ntI "Instruction::I32Const" Instruction.I32Const decodeI32 l
  | 0x42 => ntI "Instruction::I64Const" Instruction.I64Const decodeI64 l
  | 0x43 => ntI "Instruction::F32Const" Instruction.F32Const decodeFloatConst32 l
  | 0x44 => ntI "Instruction::F64Const" Instruction.F64Const decodeFloatConst64 l
  | 0x45 => .ok (some (.I32Eqz, l))
  | 0x46 => .ok (some (.I32Eq, l))
  | 0x47 => .ok (some (.I32Ne, l))
  | 0x48 => .ok (some (.I32LtS, l))
  | 0x49 => .ok (some (.I32LtU, l))
  | 0x4A => .ok (some (.I32GtS, l))
  | 0x4B => .ok (some (.I32GtU, l))
  | 0x4C => .ok (some (.I32LeS, l))
  | 0x4D => .ok (some (.I32LeU, l))
  | 0x4E => .ok (some (.I32GeS, l))
  | 0x4F => .ok (some (.I32GeU, l))
  | 0x50 => .ok (some (.I64Eqz, l))
  | 0x51 => .ok (some (.I64Eq, l))
  | 0x52 => .ok (some (.I64Ne, l))
  | 0x53 => .ok (some (.I64LtS, l))
  | 0x54 => .ok (some (.I64LtU, l))
  | 0x55 => .ok (some (.I64GtS, l))
  | 0x56 => .ok (some (.I64GtU, l))
  | 0x57 => .ok (some (.I64LeS, l))
  | 0x58 => .ok (some (.I64LeU, l))
  | 0x59 => .ok (some (.I64GeS, l))
  | 0x5A => .ok (some (.I64GeU, l))
  | 0x5B => .ok (some (.F32Eq, l))
  | 0x5C => .ok (some (.F32Ne, l))
  | 0x5D => .ok (some (.F32Lt, l))
  | 0x5E => .ok (some (.F32Gt, l))
  | 0x5F => .ok (some (.F32Le, l))
  | 0x60 => .ok (some (.F32Ge, l))
  | 0x61 => .ok (some (.F64Eq, l))
  | 0x62 => .ok (some (.F64Ne, l))
  | 0x63 => .ok (some (.F64Lt, l))
  | 0x64 => .ok (some (.F64Gt, l))
  | 0x65 => .ok (some (.F64Le, l))
  | 0x66 => .ok (some (.F64Ge, l))
  | 0x67 => .ok (some (.I32Clz, l))
  | 0x68 => .ok (some (.I32Ctz, l))
  | 0x69 => .ok (some (.I32PopCnt, l))
  | 0x6A => .ok (some (.I32Add, l))
  | 0x6B => .ok (some (.I32Sub, l))
  | 0x6C => .ok (some (.I32Mul, l))
  | 0x6D => .ok (some (.I32DivS, l))
  | 0x6E => .ok (some (.I32DivU, l))
  | 0x6F => .ok (some (.I32RemS, l))
  | 0x70 => .ok (some (.I32RemU, l))
  | 0x71 => .ok (some (.I32And, l))
  | 0x72 => .ok (some (.I32Or, l))
  | 0x73 => .ok (some (.I32Xor, l))
  | 0x74 => .ok (some (.I32Shl, l))
  | 0x75 => .ok (some (.I32ShrS, l))
  | 0x76 => .ok (some (.I32ShrU, l))
  | 0x77 => .ok (some (.I32RotL, l))
  | 0x78 => .ok (some (.I32RotR, l))
  | 0x79 => .ok (some (.I64Clz, l))
  | 0x7A => .ok (some (.I64Ctz, l))
  | 0x7B => .ok (some (.I64PopCnt, l))
  | 0x7C => .ok (some (.I64Add, l))
  | 0x7D => .ok (some (.I64Sub, l))
  | 0x7E => .ok (some (.I64Mul, l))
  | 0x7F => .ok (some (.I64DivS, l))
  | 0x80 => .ok (some (.I64DivU, l))
  | 0x81 => .ok (some (.I64RemS, l))
  | 0x82 => .ok (some (.I64RemU, l))
  | 0x83 => .ok (some (.I64And, l))
  | 0x84 => .ok (some (.I64Or, l))
  | 0x85 => .ok (some (.I64Xor, l))
  | 0x86 => .ok (some (.I64Shl, l))
  | 0x87 => .ok (some (.I64ShrS, l))
  | 0x88 => .ok (some (.I64ShrU, l))
  | 0x89 => .ok (some (.I64RotL, l))
  | 0x8A => .ok (some (.I64RotR, l))
  | 0x8B => .ok (some (.F32Abs, l))
  | 0x8C => .ok (some (.F32Neg, l))
  | 0x8D => .ok (some (.F32Ceil, l))
  | 0x8E => .ok (some (.F32Floor, l))
  | 0x8F => .ok (some (.F32Trunc, l))
  | 0x90 => .ok (some (.F32Nearest, l))
  | 0x91 => .ok (some (.F32Sqrt, l))
  | 0x92 => .ok (some (.F32Add, l))
  | 0x93 => .ok (some (.F32Sub, l))
  | 0x94 => .ok (some (.F32Mul, l))
  | 0x95 => .ok (some (.F32Div, l))
  | 0x96 => .ok (some (.F32Min, l))
  | 0x97 => .ok (some (.F32Max, l))
  | 0x98 => .ok (some (.F32CopySign, l))
  | 0x99 => .ok (some (.F64Abs, l))
  | 0x9A => .ok (some (.F64Neg, l))
  | 0x9B => .ok (some (.F64Ceil, l))
  | 0x9C => .ok (some (.F64Floor, l))
  | 0x9D => .ok (some (.F64Trunc, l))
  | 0x9E => .ok (some (.F64Nearest, l))
  | 0x9F => .ok (some (.F64Sqrt, l))
  | 0xA0 => .ok (some (.F64Add, l))
  | 0xA1 => .ok (some (.F64Sub, l))
  | 0xA2 => .ok (some (.F64Mul, l))
  | 0xA3 => .ok (some (.F64Div, l))
  | 0xA4 => .ok (some (.F64Min, l))
  | 0xA5 => .ok (some (.F64Max, l))
  | 0xA6 => .ok (some (.F64CopySign, l))
  | 0xA7 => .ok (some (.I32WrapI64, l))
  | 0xA8 => .ok (some (.I32TruncF32S, l))
  | 0xA9 => .ok (some (.I32TruncF332U, l))
  | 0xAA => .ok (some (.I32TruncF64S, l))
  | 0xAB => .ok (some (.I32TruncF64U, l))
  | 0xAC => .ok (some (.I64ExtendI32S, l))
  | 0xAD => .ok (some (.I64ExtendI32U, l))
  | 0xAE => .ok (some (.I64TruncF32S, l))
  | 0xAF => .ok (some (.I64TruncF32U, l))
  | 0xB0 => .ok (some (.I64TruncF64S, l))
  | 0xB1 => .ok (some (.I64TruncF64U, l))
  | 0xB2 => .ok (some (.F32ConvertI32S, l))
  | 0xB3 => .ok (some (.F32ConvertI32U, l))
  | 0xB4 => .ok (some (.F32ConvertI64S, l))
  | 0xB5 => .ok (some (.F32ConvertI64U, l))
  | 0xB6 => .ok (some (.F32DemoteF64, l))
  | 0xB7 => .ok (some (.F64ConvertI32S, l))
  | 0xB8 => .ok (some (.F64ConvertI32U, l))
  | 0xB9 => .ok (some (.F64ConvertI64S, l))
  | 0xBA => .ok (some (.F64ConvertI64U, l))
  | 0xBB => .ok (some (.F64PromoteF32, l))
  | 0xBC => .ok (some (.I32ReinterpretF32, l))
  | 0xBD => .ok (some (.I64ReinterpretF64, l))
  | 0xBE => .ok (some (.F32ReinterpretI32, l))
  | 0xBF => .ok (some (.F64ReinterpretI64, l))
  | 0xC0 => .ok (some (.I32Extend8S, l))
  | 0xC1 => .ok (some (.I32Extend16S, l))
  | 0xC2 => .ok (some (.I64Extend8S, l))
  | 0xC3 => .ok (some (.I64Extend16S, l))
  | 0xC4 => .ok (some (.I64Extend32S, l))
  | 0xD0 => ntI "Instruction::RefNull" Instruction.RefNull decodeRefType l
  | 0xD1 => .ok (some (.RefIsNull, l))
  | 0xD2 => ntI "Instruction::RefFunc" Instruction.RefFunc decodeFuncId l
  | 0xFC => ntI "Instruction::Misc" Instruction.Misc decodeMisc l
  | _ => .ok none

/-- `Instruction::decode_with_discriminant`: `maybe_decode_with_discriminant`
with an `UnsupportedDiscriminant` error on no match. -/
def decodeInstrWithDiscriminant (d : Nat) (l : Bytes) : DecRes Instruction :=
  match maybeDecodeInstr d l with
  | .error e => .error e
  | .ok (some (i, rest)) => .ok (i, rest)
  | .ok none => .error (unsupported "Instruction" d)

/-- `Instruction::encode` (derived): the opcode byte, then the payload
fields in order. -/
def encodeInstr : Instruction → EncRes
  | .Unreachable => .ok [0x00]
  | .Nop => .ok [0x01]
  | .BlockStart bt => .ok (0x02 :: encodeBlockType bt)
  | .LoopStart bt => .ok (0x03 :: encodeBlockType bt)
  | .IfStart bt => .ok (0x04 :: encodeBlockType bt)
  | .IfElse => .ok [0x05]
  | .End => .ok [0x0B]
  | .Br lb => .ok (0x0C :: encodeIndex lb.index)
  | .BrIf lb => .ok (0x0D :: encodeIndex lb.index)
  | .BrTable bs ot => do
    let branches ← encodeVecCountable (fun (x : LabelId) => .ok (encodeIndex x.index)) bs
    .ok (0x0E :: (branches ++ encodeIndex ot.index))
  | .Return => .ok [0x0F]
  | .Call f => .ok (0x10 :: encodeIndex f.index)
  | .CallIndirect c => .ok (0x11 :: encodeCallIndirect c)
  | .Drop => .ok [0x1A]
  | .Select => .ok [0x1B]
  | .SelectWithTypes ts => do
    let tys ← encodeVecCountable (fun v => .ok (encodeValueType v)) ts
    .ok (0x1C :: tys)
  | .LocalGet x => .ok (0x20 :: encodeIndex x.index)
  | .LocalSet x => .ok (0x21 :: encodeIndex x.index)
  | .LocalTee x => .ok (0x22 :: encodeIndex x.index)
  | .GlobalGet x => .ok (0x23 :: encodeIndex x.index)
  | .GlobalSet x => .ok (0x24 :: encodeIndex x.index)
  | .TableGet x => .ok (0x25 :: encodeIndex x.index)
  | .TableSet x => .ok (0x26 :: encodeIndex x.index)
  | .I32Load m => .ok (0x28 :: encodeMemArg m)
  | .I64Load m => .ok (0x29 :: encodeMemArg m)
  | .F32Load m => .ok (0x2A :: encodeMemArg m)
  | .F64Load m => .ok (0x2B :: encodeMemArg m)
  | .I32Load8S m => .ok (0x2C :: encodeMemArg m)
  | .I32Load8U m => .ok (0x2D :: encodeMemArg m)
  | .I32Load16S m => .ok (0x2E :: encodeMemArg m)
  | .I32Load16U m => .ok (0x2F :: encodeMemArg m)
  | .I64Load8S m => .ok (0x30 :: encodeMemArg m)
  | .I64Load8U m => .ok (0x31 :: encodeMemArg m)
  | .I64Load16S m => .ok (0x32 :: encodeMemArg m)
  | .I64Load16U m => .ok (0x33 :: encodeMemArg m)
  | .I64Load32S m => .ok (0x34 :: encodeMemArg m)
  | .I64Load32U m => .ok (0x35 :: encodeMemArg m)
  | .I32Store m => .ok (0x36 :: encodeMemArg m)
  | .I64Store m => .ok (0x37 :: encodeMemArg m)
  | .F32Store m => .ok (0x38 :: encodeMemArg m)
  | .F64Store m => .ok (0x39 :: encodeMemArg m)
  | .I32Store8 m => .ok (0x3A :: encodeMemArg m)
  | .I32Store16 m => .ok (0x3B :: encodeMemArg m)
  | .I64Store8 m => .ok (0x3C :: encodeMemArg m)
  | .I64Store16 m => .ok (0x3D :: encodeMemArg m)
  | .I64Store32 m => .ok (0x3E :: encodeMemArg m)
  | .MemorySize x => .ok (0x3F :: encodeIndex x.index)
  | .MemoryGrow x => .ok (0x40 :: encodeIndex x.index)
  | .I32Const v => .ok (0x41 :: encodeI32 v)
  | .I64Const v => .ok (0x42 :: encodeI64 v)
  | .F32Const c => .ok (0x43 :: encodeFloatConst32 c)
  | .F64Const c => .ok (0x44 :: encodeFloatConst64 c)
  | .I32Eqz => .ok [0x45]
  | .I32Eq => .ok [0x46]
  | .I32Ne => .ok [0x47]
  | .I32LtS => .ok [0x48]
  | .I32LtU => .ok [0x49]
  | .I32GtS => .ok [0x4A]
  | .I32GtU => .ok [0x4B]
  | .I32LeS => .ok [0x4C]
  | .I32LeU => .ok [0x4D]
  | .I32GeS => .ok [0x4E]
  | .I32GeU => .ok [0x4F]
  | .I64Eqz => .ok [0x50]
  | .I64Eq => .ok [0x51]
  | .I64Ne => .ok [0x52]
  | .I64LtS => .ok [0x53]
  | .I64LtU => .ok [0x54]
  | .I64GtS => .ok [0x55]
  | .I64GtU => .ok [0x56]
  | .I64LeS => .ok [0x57]
  | .I64LeU => .ok [0x58]
  | .I64GeS => .ok [0x59]
  | .I64GeU => .ok [0x5A]
  | .F32Eq => .ok [0x5B]
  | .F32Ne => .ok [0x5C]
  | .F32Lt => .ok [0x5D]
  | .F32Gt => .ok [0x5E]
  | .F32Le => .ok [0x5F]
  | .F32Ge => .ok [0x60]
  | .F64Eq => .ok [0x61]
  | .F64Ne => .ok [0x62]
  | .F64Lt => .ok [0x63]
  | .F64Gt => .ok [0x64]
  | .F64Le => .ok [0x65]
  | .F64Ge => .ok [0x66]
  | .I32Clz => .ok [0x67]
  | .I32Ctz => .ok [0x68]
  | .I32PopCnt => .ok [0x69]
  | .I32Add => .ok [0x6A]
  | .I32Sub => .ok [0x6B]
  | .I32Mul => .ok [0x6C]
  | .I32DivS => .ok [0x6D]
  | .I32DivU => .ok [0x6E]
  | .I32RemS => .ok [0x6F]
  | .I32RemU => .ok [0x70]
  | .I32And => .ok [0x71]
  | .I32Or => .ok [0x72]
  | .I32Xor => .ok [0x73]
  | .I32Shl => .ok [0x74]
  | .I32ShrS => .ok [0x75]
  | .I32ShrU => .ok [0x76]
  | .I32RotL => .ok [0x77]
  | .I32RotR => .ok [0x78]
  | .I64Clz => .ok [0x79]
  | .I64Ctz => .ok [0x7A]
  | .I64PopCnt => .ok [0x7B]
  | .I64Add => .ok [0x7C]
  | .I64Sub => .ok [0x7D]
  | .I64Mul => .ok [0x7E]
  | .I64DivS => .ok [0x7F]
  | .I64DivU => .ok [0x80]
  | .I64RemS => .ok [0x81]
  | .I64RemU => .ok [0x82]
  | .I64And => .ok [0x83]
  | .I64Or => .ok [0x84]
  | .I64Xor => .ok [0x85]
  | .I64Shl => .ok [0x86]
  | .I64ShrS => .ok [0x87]
  | .I64ShrU => .ok [0x88]
  | .I64RotL => .ok [0x89]
  | .I64RotR => .ok [0x8A]
  | .F32Abs => .ok [0x8B]
  | .F32Neg => .ok [0x8C]
  | .F32Ceil => .ok [0x8D]
  | .F32Floor => .ok [0x8E]
  | .F32Trunc => .ok [0x8F]
  | .F32Nearest => .ok [0x90]
  | .F32Sqrt => .ok [0x91]
  | .F32Add => .ok [0x92]
  | .F32Sub => .ok [0x93]
  | .F32Mul => .ok [0x94]
  | .F32Div => .ok [0x95]
  | .F32Min => .ok [0x96]
  | .F32Max => .ok [0x97]
  | .F32CopySign => .ok [0x98]
  | .F64Abs => .ok [0x99]
  | .F64Neg => .ok [0x9A]
  | .F64Ceil => .ok [0x9B]
  | .F64Floor => .ok [0x9C]
  | .F64Trunc => .ok [0x9D]
  | .F64Nearest => .ok [0x9E]
  | .F64Sqrt => .ok [0x9F]
  | .F64Add => .ok [0xA0]
  | .F64Sub => .ok [0xA1]
  | .F64Mul => .ok [0xA2]
  | .F64Div => .ok [0xA3]
  | .F64Min => .ok [0xA4]
  | .F64Max => .ok [0xA5]
  | .F64CopySign => .ok [0xA6]
  | .I32WrapI64 => .ok [0xA7]
  | .I32TruncF32S => .ok [0xA8]
  | .I32TruncF332U => .ok [0xA9]
  | .I32TruncF64S => .ok [0xAA]
  | .I32TruncF64U => .ok [0xAB]
  | .I64ExtendI32S => .ok [0xAC]
  | .I64ExtendI32U => .ok [0xAD]
  | .I64TruncF32S => .ok [0xAE]
  | .I64TruncF32U => .ok [0xAF]
  | .I64TruncF64S => .ok [0xB0]
  | .I64TruncF64U => .ok [0xB1]
  | .F32ConvertI32S => .ok [0xB2]
  | .F32ConvertI32U => .ok [0xB3]
  | .F32ConvertI64S => .ok [0xB4]
  | .F32ConvertI64U => .ok [0xB5]
  | .F32DemoteF64 => .ok [0xB6]
  | .F64ConvertI32S => .ok [0xB7]
  | .F64ConvertI32U => .ok [0xB8]
  | .F64ConvertI64S => .ok [0xB9]
  | .F64ConvertI64U => .ok [0xBA]
  | .F64PromoteF32 => .ok [0xBB]
  | .I32ReinterpretF32 => .ok [0xBC]
  | .I64ReinterpretF64 => .ok [0xBD]
  | .F32ReinterpretI32 => .ok [0xBE]
  | .F64ReinterpretI64 => .ok [0xBF]
  | .I32Extend8S => .ok [0xC0]
  | .I32Extend16S => .ok [0xC1]
  | .I64Extend8S => .ok [0xC2]
  | .I64Extend16S => .ok [0xC3]
  | .I64Extend32S => .ok [0xC4]
  | .RefNull r => .ok (0xD0 :: encodeRefType r)
  | .RefIsNull => .ok [0xD1]
  | .RefFunc f => .ok (0xD2 :: encodeIndex f.index)
  | .Misc m => .ok (0xFC :: encodeMisc m)

/-- `Encode for [Instruction]`: each instruction in order, then a
terminating `END` (`0x0B`) byte. -/
def encodeInstrSeq : List Instruction → EncRes
  | [] => .ok [0x0B]
  | i :: rest => do
    let h ← encodeInstr i
    let t ← encodeInstrSeq rest
    .ok (h ++ t)

/-- The loop body of `Decode for Vec<Instruction>` (`instructions/mod.rs`):
read an opcode byte; `BLOCK`/`LOOP`/`IF` increment the depth; `END`
decrements it when positive and otherwise terminates the stream (without
pushing an instruction); every non-terminating opcode is then decoded by
discriminant and pushed, with its index attached to any error.  The `fuel`
argument is only a termination device for Lean: the Rust loop consumes at
least the opcode byte per iteration, so `decodeExpression` supplies fuel
exceeding the input length, and the fuel-exhaustion branch is unreachable. -/
def decodeInstrSeqAux : Nat → Nat → Nat → Bytes → DecRes (List Instruction)
  | 0, _, _, _ => .error (err .Io)
  | fuel + 1, depth, idx, l =>
    match decodeU8 l with
    | .error e => .error e
    | .ok (op, l1) =>
      if op = 0x0B ∧ depth = 0 then .ok ([], l1)
      else
        let depth2 :=
          if op = 0x02 ∨ op = 0x03 ∨ op = 0x04 then depth + 1
          else if op = 0x0B then depth - 1
          else depth
        match inPathE (.Index idx) (decodeInstrWithDiscriminant op l1) with
        | .error e => .error e
        | .ok (i, l2) =>
          match decodeInstrSeqAux fuel depth2 (idx + 1) l2 with
          | .error e => .error e
          | .ok (is, l3) => .ok (i :: is, l3)

/-- `Decode for Vec<Instruction>`: the depth-tracking loop starting at
depth 0 and index 0. -/
def decodeExpression (l : Bytes) : DecRes (List Instruction) :=
  decodeInstrSeqAux (l.length + 1) 0 0 l

/-- The byte stream of `n` consecutive `BLOCK (empty)` openers
(`0x02 0x40` repeated `n` times). -/
def blockOpeners : Nat → Bytes
  | 0 => []
  | n + 1 => 0x02 :: 0x40 :: blockOpeners n

/-- Expressions are plain instruction vectors (`pub type Expression`). -/
abbrev Expression := List Instruction

/-- Lazy state (`lazy.rs LazyStatus`): raw undecoded input bytes, or an owned
value.  The `parsed: OnceCell<T>` memoization cell of the input state is not
represented: it can only ever hold the successful result of `decode_raw` on
`raw` (decoding is deterministic), so re-running the decoder, as this pure
model does, is observationally equivalent. -/
inductive Lazy (α : Type) where
  | FromInput (raw : Bytes)
  | Output (value : α)

/-- `Lazy::from_raw`: construct the input-state form. -/
def Lazy.fromRaw (raw : Bytes) : Lazy α := .FromInput raw

/-- `Lazy::try_as_raw`: the raw bytes when still in input state (`Ok`),
otherwise the owned value (`Err`). -/
def Lazy.tryAsRaw : Lazy α → Except α Bytes
  | .FromInput raw => .ok raw
  | .Output v => .error v

/-- `decode_raw` (`lazy.rs`): run the decoder on the raw bytes and fail with
`UnrecognizedData` when bytes remain. -/
def decodeRaw (dec : Bytes → DecRes α) (raw : Bytes) : Except DecodeError α :=
  match dec raw with
  | .error e => .error e
  | .ok (v, rest) => if rest.isEmpty then .ok v else .error (err .UnrecognizedData)

/-- `Lazy::try_contents`: decode on demand (memoized in Rust). -/
def Lazy.tryContents (dec : Bytes → DecRes α) : Lazy α → Except DecodeError α
  | .FromInput raw => decodeRaw dec raw
  | .Output v => .ok v

/-- `Lazy::try_contents_mut` in state-passing form: on success the lazy
transitions to `Output`; on a decode error the error is returned and the
status assignment does not happen, leaving the input state in place. -/
def Lazy.tryContentsMut (dec : Bytes → DecRes α) :
    Lazy α → Except DecodeError α × Lazy α
  | .FromInput raw =>
    (match decodeRaw dec raw with
     | .ok v => (.ok v, .Output v)
     | .error e => (.error e, .FromInput raw))
  | .Output v => (.ok v, .Output v)

/-- `Encode for Lazy<T>`: raw bytes verbatim in input state, otherwise the
re-encoded owned value. -/
def Lazy.encode (enc : α → EncRes) : Lazy α → EncRes
  | .FromInput raw => .ok raw
  | .Output v => enc v

/-- `Decode for Lazy<T>`: read all remaining bytes and store them raw. -/
def decodeLazy (l : Bytes) : DecRes (Lazy α) := .ok (.FromInput l, [])

/-- `PartialEq for Lazy<T>`: fast path — both in input state with equal raw
bytes; otherwise decode both and compare structurally, treating any decode
failure as inequality. -/
def lazyBeq (dec : Bytes → DecRes α) (beq : α → α → Bool) (a b : Lazy α) : Bool :=
  let fast :=
    match a, b with
    | .FromInput r1, .FromInput r2 => r1 == r2
    | _, _ => false
  if fast then true
  else
    match a.tryContents dec, b.tryContents dec with
    | .ok v1, .ok v2 => beq v1 v2
    | _, _ => false

/-- `Blob<T>`: a length-framed region holding a lazily decoded `T`.
Modelled from the spec (§4.2) together with `blob.rs`: the snapshot's
`blob.rs` is from an older revision of the crate (it still references the
pre-`Lazy` machinery), but both it and the spec agree that a blob holds its
payload lazily, encodes stored raw bytes verbatim with a `u32` byte-length
prefix, and re-encodes the owned value through a scratch buffer otherwise. -/
structure Blob (α : Type) where
  contents : Lazy α

/-- Decode a `Blob<T>`: read the `u32` length, take exactly that many bytes
(`RawBlob` framing) and store them undecoded. -/
def decodeBlob (l : Bytes) : DecRes (Blob α) :=
  match decodeFramed decodeVecU8 l with
  | .error e => .error e
  | .ok (bs, rest) => .ok (⟨.FromInput bs⟩, rest)

/-- Encode a `Blob<T>`: raw bytes verbatim when still in input state,
otherwise serialize the value into a buffer; either way emit the byte
length as `u32` followed by the bytes. -/
def encodeBlob (enc : α → EncRes) (b : Blob α) : EncRes :=
  match b.contents with
  | .FromInput raw => encodeFramed raw
  | .Output v => do
    let buf ← enc v
    encodeFramed buf

/-- `PartialEq for Blob<T>`: delegating to the lazy contents. -/
def blobBeq (dec : Bytes → DecRes α) (beq : α → α → Bool) (a b : Blob α) : Bool :=
  lazyBeq dec beq a.contents b.contents

/-- A blob in owned (output) state, as produced by programmatic construction
(`From<T> for Blob<T>`). -/
def Blob.fromValue (v : α) : Blob α := ⟨.Output v⟩

/-- `UnparsedBytes` (referenced by `RawCustomSection`; the declaration is
missing from the snapshot).  Modelled from the spec: unknown custom-section
payloads are preserved as raw bytes — decode reads to the end of the framed
region, encode emits the bytes verbatim. -/
structure UnparsedBytes where
  bytes : Bytes
deriving BEq, DecidableEq

def decodeUnparsedBytes (l : Bytes) : DecRes UnparsedBytes :=
  .ok (⟨l⟩, [])

def encodeUnparsedBytes (u : UnparsedBytes) : Bytes := u.bytes

/-- Element-wise list equality under an element comparison, as the derived
`PartialEq` of a Rust `Vec` behaves. -/
def listBeq (f : α → α → Bool) : List α → List α → Bool
  | [], [] => true
  | a :: as_, b :: bs => f a b && listBeq f as_ bs
  | _, _ => false

/-- Name association pairs (`sections.rs NameAssoc<I, V>`). -/
structure NameAssoc (I V : Type) where
  index : I
  value : V
deriving BEq

/-- Name maps (`sections.rs NameMap<I, V>`). -/
structure NameMap (I V : Type) where
  items : List (NameAssoc I V)
deriving BEq

def decodeNameAssoc (decI : Bytes → DecRes I) (decV : Bytes → DecRes V)
    (l : Bytes) : DecRes (NameAssoc I V) :=
  inPathE (.Variant "NameAssoc") <|
    match inPathE (.Name "index") (decI l) with
    | .error e => .error e
    | .ok (i, l1) =>
      match inPathE (.Name "value") (decV l1) with
      | .error e => .error e
      | .ok (v, l2) => .ok ({ index := i, value := v }, l2)

def encodeNameAssoc (encI : I → EncRes) (encV : V → EncRes) (a : NameAssoc I V) : EncRes := do
  let i ← encI a.index
  let v ← encV a.value
  .ok (i ++ v)

def decodeNameMap (decI : Bytes → DecRes I) (decV : Bytes → DecRes V)
    (l : Bytes) : DecRes (NameMap I V) :=
  inPathE (.Variant "NameMap") <|
    match inPathE (.Name "items") (decodeVecCountable (decodeNameAssoc decI decV) l) with
    | .error e => .error e
    | .ok (xs, l1) => .ok (⟨xs⟩, l1)

def encodeNameMap (encI : I → EncRes) (encV : V → EncRes) (m : NameMap I V) : EncRes :=
  encodeVecCountable (encodeNameAssoc encI encV) m.items

/-- Name subsections (`sections.rs NameSubSection`;
`extended-name-section` feature disabled, so only `Module = 0`, `Func = 1`
and `Local = 2` exist).  `Local` carries an indirect name map. -/
inductive NameSubSection where
  | Module (b : Blob Str)
  | Func (b : Blob (NameMap FuncId Str))
  | Local (b : Blob (NameMap FuncId (NameMap LocalId Str)))

def beqNameSubSection (a b : NameSubSection) : Bool :=
  match a, b with
  | .Module x, .Module y => blobBeq decodeStr (· == ·) x y
  | .Func x, .Func y =>
    blobBeq (decodeNameMap decodeFuncId decodeStr) (· == ·) x y
  | .Local x, .Local y =>
    blobBeq (decodeNameMap decodeFuncId (decodeNameMap decodeLocalId decodeStr)) (· == ·) x y
  | _, _ => false

/-- `NameSubSection::maybe_decode_with_discriminant` (derived): each variant
holds a `Blob`, decoded lazily. -/
def maybeDecodeNameSubSection (d : Nat) (l : Bytes) :
    Except DecodeError (Option (NameSubSection × Bytes)) :=
  match d with
  | 0 =>
    inPathO (.Variant "NameSubSection::Module") <|
      match decodeBlob (α := Str) l with
      | .error e => .error e
      | .ok (b, l1) => .ok (some (.Module b, l1))
  | 1 =>
    inPathO (.Variant "NameSubSection::Func") <|
      match decodeBlob (α := NameMap FuncId Str) l with
      | .error e => .error e
      | .ok (b, l1) => .ok (some (.Func b, l1))
  | 2 =>
    inPathO (.Variant "NameSubSection::Local") <|
      match decodeBlob (α := NameMap FuncId (NameMap LocalId Str)) l with
      | .error e => .error e
      | .ok (b, l1) => .ok (some (.Local b, l1))
  | _ => .ok none

/-- `Decode for Vec<NameSubSection>` (`sections.rs`): read subsections until
end of input, attaching the index to errors.  Fuel as in `decodeExpression`. -/
def decodeVecNameSubSectionAux : Nat → Nat → Bytes → DecRes (List NameSubSection)
  | 0, _, _ => .error (err .Io)
  | fuel + 1, idx, l =>
    match decodeOptionU8 l with
    | .error e => .error e
    | .ok (none, l1) => .ok ([], l1)
    | .ok (some d, l1) =>
      let step : DecRes NameSubSection :=
        match maybeDecodeNameSubSection d l1 with
        | .error e => .error e
        | .ok (some (s, l2)) => .ok (s, l2)
        | .ok none => .error (unsupported "NameSubSection" d)
      match inPathE (.Index idx) step with
      | .error e => .error e
      | .ok (s, l2) =>
        match decodeVecNameSubSectionAux fuel (idx + 1) l2 with
        | .error e => .error e
        | .ok (ss, l3) => .ok (s :: ss, l3)

def decodeVecNameSubSection (l : Bytes) : DecRes (List NameSubSection) :=
  decodeVecNameSubSectionAux (l.length + 1) 0 l

def encodeNameSubSection : NameSubSection → EncRes
  | .Module b => do
    let p ← encodeBlob encodeStr b
    .ok (0 :: p)
  | .Func b => do
    let p ← encodeBlob (encodeNameMap (fun (x : FuncId) => .ok (encodeIndex x.index)) encodeStr) b
    .ok (1 :: p)
  | .Local b => do
    let p ← encodeBlob (encodeNameMap (fun (x : FuncId) => .ok (encodeIndex x.index))
      (encodeNameMap (fun (x : LocalId) => .ok (encodeIndex x.index)) encodeStr)) b
    .ok (2 :: p)

/-- `Encode for [NameSubSection]`: each subsection in order, no count. -/
def encodeVecNameSubSection : List NameSubSection → EncRes :=
  encodeList encodeNameSubSection

/-- Producer versioned names (`sections.rs ProducerVersionedName`). -/
structure ProducerVersionedName where
  name : Str
  version : Str
deriving BEq

/-- Producer fields (`sections.rs ProducerField`). -/
structure ProducerField where
  name : Str
  values : List ProducerVersionedName
deriving BEq

def decodeProducerVersionedName (l : Bytes) : DecRes ProducerVersionedName :=
  inPathE (.Variant "ProducerVersionedName") <|
    match inPathE (.Name "name") (decodeStr l) with
    | .error e => .error e
    | .ok (n, l1) =>
      match inPathE (.Name "version") (decodeStr l1) with
      | .error e => .error e
      | .ok (v, l2) => .ok ({ name := n, version := v }, l2)

def encodeProducerVersionedName (p : ProducerVersionedName) : EncRes := do
  let n ← encodeStr p.name
  let v ← encodeStr p.version
  .ok (n ++ v)

def decodeProducerField (l : Bytes) : DecRes ProducerField :=
  inPathE (.Variant "ProducerField") <|
    match inPathE (.Name "name") (decodeStr l) with
    | .error e => .error e
    | .ok (n, l1) =>
      match inPathE (.Name "values")
          (decodeVecCountable decodeProducerVersionedName l1) with
      | .error e => .error e
      | .ok (vs, l2) => .ok ({ name := n, values := vs }, l2)

def encodeProducerField (p : ProducerField) : EncRes := do
  let n ← encodeStr p.name
  let vs ← encodeVecCountable encodeProducerVersionedName p.values
  .ok (n ++ vs)

def decodeVecProducerField : Bytes → DecRes (List ProducerField) :=
  decodeVecCountable decodeProducerField

/-- Raw custom sections with unknown semantics (`sections.rs RawCustomSection`). -/
structure RawCustomSection where
  name : Str
  data : UnparsedBytes
deriving BEq

def decodeRawCustomSection (l : Bytes) : DecRes RawCustomSection :=
  inPathE (.Variant "RawCustomSection") <|
    match inPathE (.Name "name") (decodeStr l) with
    | .error e => .error e
    | .ok (n, l1) =>
      match inPathE (.Name "data") (decodeUnparsedBytes l1) with
      | .error e => .error e
      | .ok (d, l2) => .ok ({ name := n, data := d }, l2)

def encodeRawCustomSection (r : RawCustomSection) : EncRes := do
  let n ← encodeStr r.name
  .ok (n ++ encodeUnparsedBytes r.data)

/-- ASCII bytes of the custom-section name `name`. -/
def csnName : Bytes := [0x6E, 0x61, 0x6D, 0x65]

/-- ASCII bytes of `producers`. -/
def csnProducers : Bytes := [0x70, 0x72, 0x6F, 0x64, 0x75, 0x63, 0x65, 0x72, 0x73]

/-- ASCII bytes of `external_debug_info`. -/
def csnExternalDebugInfo : Bytes :=
  [0x65, 0x78, 0x74, 0x65, 0x72, 0x6E, 0x61, 0x6C, 0x5F, 0x64, 0x65, 0x62, 0x75, 0x67,
   0x5F, 0x69, 0x6E, 0x66, 0x6F]

/-- ASCII bytes of `sourceMappingURL`. -/
def csnSourceMappingUrl : Bytes :=
  [0x73, 0x6F, 0x75, 0x72, 0x63, 0x65, 0x4D, 0x61, 0x70, 0x70, 0x69, 0x6E, 0x67,
   0x55, 0x52, 0x4C]

/-- ASCII bytes of `build_id`. -/
def csnBuildId : Bytes := [0x62, 0x75, 0x69, 0x6C, 0x64, 0x5F, 0x69, 0x64]

/-- Custom sections (`define_custom_sections!` in `sections.rs`): recognized
names carry lazily decoded payloads; unknown names are preserved raw. -/
inductive CustomSection where
  | Name (p : Lazy (List NameSubSection))
  | Producers (p : Lazy (List ProducerField))
  | ExternalDebugInfo (p : Lazy Str)
  | SourceMappingUrl (p : Lazy Str)
  | BuildId (bytes : Bytes)
  | Other (raw : RawCustomSection)

/-- `CustomSection::name`: the section name. -/
def CustomSection.sectionName : CustomSection → Str
  | .Name _ => ⟨csnName⟩
  | .Producers _ => ⟨csnProducers⟩
  | .ExternalDebugInfo _ => ⟨csnExternalDebugInfo⟩
  | .SourceMappingUrl _ => ⟨csnSourceMappingUrl⟩
  | .BuildId _ => ⟨csnBuildId⟩
  | .Other raw => raw.name

/-- `PartialEq for CustomSection` (derived): same variant with equal
payloads; lazies compare with the lazy equality. -/
def beqCustomSection (a b : CustomSection) : Bool :=
  match a, b with
  | .Name x, .Name y => lazyBeq decodeVecNameSubSection (listBeq beqNameSubSection) x y
  | .Producers x, .Producers y => lazyBeq decodeVecProducerField (· == ·) x y
  | .ExternalDebugInfo x, .ExternalDebugInfo y => lazyBeq decodeStr (· == ·) x y
  | .SourceMappingUrl x, .SourceMappingUrl y => lazyBeq decodeStr (· == ·) x y
  | .BuildId x, .BuildId y => x == y
  | .Other x, .Other y => x == y
  | _, _ => false

/-- `Decode for CustomSection` (hand-written in the macro): decode the name
string, then dispatch on it; recognized payloads are stored lazily
(`Lazy::decode` reads the rest raw), `build_id` reads raw bytes, and
unknown names become `RawCustomSection`. -/
def decodeCustomSection (l : Bytes) : DecRes CustomSection :=
  match decodeStr l with
  | .error e => .error e
  | .ok (n, l1) =>
    if n.bytes = csnName then
      match decodeLazy (α := List NameSubSection) l1 with
      | .error e => .error e
      | .ok (p, l2) => .ok (.Name p, l2)
    else if n.bytes = csnProducers then
      match decodeLazy (α := List ProducerField) l1 with
      | .error e => .error e
      | .ok (p, l2) => .ok (.Producers p, l2)
    else if n.bytes = csnExternalDebugInfo then
      match decodeLazy (α := Str) l1 with
      | .error e => .error e
      | .ok (p, l2) => .ok (.ExternalDebugInfo p, l2)
    else if n.bytes = csnSourceMappingUrl then
      match decodeLazy (α := Str) l1 with
      | .error e => .error e
      | .ok (p, l2) => .ok (.SourceMappingUrl p, l2)
    else if n.bytes = csnBuildId then
      match decodeVecU8 l1 with
      | .error e => .error e
      | .ok (bs, l2) => .ok (.BuildId bs, l2)
    else
      match decodeUnparsedBytes l1 with
      | .error e => .error e
      | .ok (d, l2) => .ok (.Other { name := n, data := d }, l2)

/-- `Encode for CustomSection`: the name string, then the payload. -/
def encodeCustomSection : CustomSection → EncRes
  | .Name p => do
    let n ← encodeStr ⟨csnName⟩
    let b ← p.encode encodeVecNameSubSection
    .ok (n ++ b)
  | .Producers p => do
    let n ← encodeStr ⟨csnProducers⟩
    let b ← p.encode (encodeVecCountable encodeProducerField)
    .ok (n ++ b)
  | .ExternalDebugInfo p => do
    let n ← encodeStr ⟨csnExternalDebugInfo⟩
    let b ← p.encode encodeStr
    .ok (n ++ b)
  | .SourceMappingUrl p => do
    let n ← encodeStr ⟨csnSourceMappingUrl⟩
    let b ← p.encode encodeStr
    .ok (n ++ b)
  | .BuildId bs => do
    let n ← encodeStr ⟨csnBuildId⟩
    .ok (n ++ bs)
  | .Other raw => encodeRawCustomSection raw

/-- Import descriptors (`sections.rs ImportDesc`, `exception-handling` on). -/
inductive ImportDesc where
  | Func (t : TypeId)
  | Table (t : TableType)
  | Mem (m : MemType)
  | Global (g : GlobalType)
  | Exception (e : ExceptionType)
deriving BEq

def decodeImportDesc (l : Bytes) : DecRes ImportDesc :=
  match decodeU8 l with
  | .error e => .error e
  | .ok (d, l1) =>
    match d with
    | 0x00 =>
      match inPathE (.Variant "ImportDesc::Func") (decodeTypeId l1) with
      | .error e => .error e
      | .ok (t, l2) => .ok (.Func t, l2)
    | 0x01 =>
      match inPathE (.Variant "ImportDesc::Table") (decodeTableType l1) with
      | .error e => .error e
      | .ok (t, l2) => .ok (.Table t, l2)
    | 0x02 =>
      match inPathE (.Variant "ImportDesc::Mem") (decodeMemType l1) with
      | .error e => .error e
      | .ok (m, l2) => .ok (.Mem m, l2)
    | 0x03 =>
      match inPathE (.Variant "ImportDesc::Global") (decodeGlobalType l1) with
      | .error e => .error e
      | .ok (g, l2) => .ok (.Global g, l2)
    | 0x04 =>
      match inPathE (.Variant "ImportDesc::Exception") (decodeExceptionType l1) with
      | .error e => .error e
      | .ok (x, l2) => .ok (.Exception x, l2)
    | _ => .error (unsupported "ImportDesc" d)

def encodeImportDesc : ImportDesc → EncRes
  | .Func t => .ok (0x00 :: encodeIndex t.index)
  | .Table t => .ok (0x01 :: encodeTableType t)
  | .Mem m => .ok (0x02 :: encodeMemType m)
  | .Global g => .ok (0x03 :: encodeGlobalType g)
  | .Exception x => do
    let b ← encodeExceptionType x
    .ok (0x04 :: b)

/-- Import paths (`sections.rs ImportPath`). -/
structure ImportPath where
  module : Str
  name : Str
deriving BEq

def decodeImportPath (l : Bytes) : DecRes ImportPath :=
  inPathE (.Variant "ImportPath") <|
    match inPathE (.Name "module") (decodeStr l) with
    | .error e => .error e
    | .ok (m, l1) =>
      match inPathE (.Name "name") (decodeStr l1) with
      | .error e => .error e
      | .ok (n, l2) => .ok ({ module := m, name := n }, l2)

def encodeImportPath (p : ImportPath) : EncRes := do
  let m ← encodeStr p.module
  let n ← encodeStr p.name
  .ok (m ++ n)

/-- Imports (`sections.rs Import`). -/
structure Import where
  path : ImportPath
  desc : ImportDesc
deriving BEq

def decodeImport (l : Bytes) : DecRes Import :=
  inPathE (.Variant "Import") <|
    match inPathE (.Name "path") (decodeImportPath l) with
    | .error e => .error e
    | .ok (p, l1) =>
      match inPathE (.Name "desc") (decodeImportDesc l1) with
      | .error e => .error e
      | .ok (d, l2) => .ok ({ path := p, desc := d }, l2)

def encodeImport (i : Import) : EncRes := do
  let p ← encodeImportPath i.path
  let d ← encodeImportDesc i.desc
  .ok (p ++ d)

/-- Globals (`sections.rs Global`). -/
structure Global where
  ty : GlobalType
  init : Expression
deriving BEq

def decodeGlobal (l : Bytes) : DecRes Global :=
  inPathE (.Variant "Global") <|
    match inPathE (.Name "ty") (decodeGlobalType l) with
    | .error e => .error e
    | .ok (t, l1) =>
      match inPathE (.Name "init") (decodeExpression l1) with
      | .error e => .error e
      | .ok (x, l2) => .ok ({ ty := t, init := x }, l2)

def encodeGlobal (g : Global) : EncRes := do
  let x ← encodeInstrSeq g.init
  .ok (encodeGlobalType g.ty ++ x)

/-- Export descriptors (`sections.rs ExportDesc`, `exception-handling` on). -/
inductive ExportDesc where
  | Func (f : FuncId)
  | Table (t : TableId)
  | Mem (m : MemId)
  | Global (g : GlobalId)
  | Exception (e : ExceptionId)
deriving BEq

def decodeExportDesc (l : Bytes) : DecRes ExportDesc :=
  match decodeU8 l with
  | .error e => .error e
  | .ok (d, l1) =>
    match d with
    | 0x00 =>
      match inPathE (.Variant "ExportDesc::Func") (decodeFuncId l1) with
      | .error e => .error e
      | .ok (x, l2) => .ok (.Func x, l2)
    | 0x01 =>
      match inPathE (.Variant "ExportDesc::Table") (decodeTableId l1) with
      | .error e => .error e
      | .ok (x, l2) => .ok (.Table x, l2)
    | 0x02 =>
      match inPathE (.Variant "ExportDesc::Mem") (decodeMemId l1) with
      | .error e => .error e
      | .ok (x, l2) => .ok (.Mem x, l2)
    | 0x03 =>
      match inPathE (.Variant "ExportDesc::Global") (decodeGlobalId l1) with
      | .error e => .error e
      | .ok (x, l2) => .ok (.Global x, l2)
    | 0x04 =>
      match inPathE (.Variant "ExportDesc::Exception") (decodeExceptionId l1) with
      | .error e => .error e
      | .ok (x, l2) => .ok (.Exception x, l2)
    | _ => .error (unsupported "ExportDesc" d)

def encodeExportDesc : ExportDesc → Bytes
  | .Func x => 0x00 :: encodeIndex x.index
  | .Table x => 0x01 :: encodeIndex x.index
  | .Mem x => 0x02 :: encodeIndex x.index
  | .Global x => 0x03 :: encodeIndex x.index
  | .Exception x => 0x04 :: encodeIndex x.index

/-- Exports (`sections.rs Export`). -/
structure Export where
  name : Str
  desc : ExportDesc
deriving BEq

def decodeExport (l : Bytes) : DecRes Export :=
  inPathE (.Variant "Export") <|
    match inPathE (.Name "name") (decodeStr l) with
    | .error e => .error e
    | .ok (n, l1) =>
      match inPathE (.Name "desc") (decodeExportDesc l1) with
      | .error e => .error e
      | .ok (d, l2) => .ok ({ name := n, desc := d }, l2)

def encodeExport (x : Export) : EncRes := do
  let n ← encodeStr x.name
  .ok (n ++ encodeExportDesc x.desc)

/-- Element kinds (`sections.rs ElemKind`: only `FuncRef = 0x00`). -/
inductive ElemKind where
  | FuncRef
deriving BEq

def decodeElemKind (l : Bytes) : DecRes ElemKind :=
  match decodeU8 l with
  | .error e => .error e
  | .ok (d, l1) =>
    match d with
    | 0x00 => .ok (.FuncRef, l1)
    | _ => .error (unsupported "ElemKind" d)

def encodeElemKind : ElemKind → Bytes
  | .FuncRef => [0x00]

/-- Element segments (`sections.rs Element`, eight variants `0x00..0x07`). -/
inductive Element where
  | ActiveWithFuncs (offset : Expression) (funcs : List FuncId)
  | PassiveWithFuncs (kind : ElemKind) (funcs : List FuncId)
  | ActiveWithTableAndFuncs (table : TableId) (offset : Expression)
      (kind : ElemKind) (funcs : List FuncId)
  | DeclarativeWithFuncs (kind : ElemKind) (funcs : List FuncId)
  | ActiveWithExprs (offset : Expression) (exprs : List Expression)
  | PassiveWithExprs (ty : RefType) (exprs : List Expression)
  | ActiveWithTableAndExprs (table : TableId) (offset : Expression)
      (ty : RefType) (exprs : List Expression)
  | DeclarativeWithExprs (ty : RefType) (exprs : List Expression)
deriving BEq

def decodeVecFuncId : Bytes → DecRes (List FuncId) :=
  decodeVecCountable decodeFuncId

def decodeVecExpression : Bytes → DecRes (List Expression) :=
  decodeVecCountable decodeExpression

def encodeVecFuncId : List FuncId → EncRes :=
  encodeVecCountable (fun (x : FuncId) => .ok (encodeIndex x.index))

def encodeVecExpression : List Expression → EncRes :=
  encodeVecCountable encodeInstrSeq

def decodeElement (l : Bytes) : DecRes Element :=
  match decodeU8 l with
  | .error e => .error e
  | .ok (d, l1) =>
    match d with
    | 0x00 =>
      inPathE (.Variant "Element::ActiveWithFuncs") <|
        match inPathE (.Name "offset") (decodeExpression l1) with
        | .error e => .error e
        | .ok (o, l2) =>
          match inPathE (.Name "funcs") (decodeVecFuncId l2) with
          | .error e => .error e
          | .ok (fs, l3) => .ok (.ActiveWithFuncs o fs, l3)
    | 0x01 =>
      inPathE (.Variant "Element::PassiveWithFuncs") <|
        match inPathE (.Name "kind") (decodeElemKind l1) with
        | .error e => .error e
        | .ok (k, l2) =>
          match inPathE (.Name "funcs") (decodeVecFuncId l2) with
          | .error e => .error e
          | .ok (fs, l3) => .ok (.PassiveWithFuncs k fs, l3)
    | 0x02 =>
      inPathE (.Variant "Element::ActiveWithTableAndFuncs") <|
        match inPathE (.Name "table") (decodeTableId l1) with
        | .error e => .error e
        | .ok (t, l2) =>
          match inPathE (.Name "offset") (decodeExpression l2) with
          | .error e => .error e
          | .ok (o, l3) =>
            match inPathE (.Name "kind") (decodeElemKind l3) with
            | .error e => .error e
            | .ok (k, l4) =>
              match inPathE (.Name "funcs") (decodeVecFuncId l4) with
              | .error e => .error e
              | .ok (fs, l5) => .ok (.ActiveWithTableAndFuncs t o k fs, l5)
    | 0x03 =>
      inPathE (.Variant "Element::DeclarativeWithFuncs") <|
        match inPathE (.Name "kind") (decodeElemKind l1) with
        | .error e => .error e
        | .ok (k, l2) =>
          match inPathE (.Name "funcs") (decodeVecFuncId l2) with
          | .error e => .error e
          | .ok (fs, l3) => .ok (.DeclarativeWithFuncs k fs, l3)
    | 0x04 =>
      inPathE (.Variant "Element::ActiveWithExprs") <|
        match inPathE (.Name "offset") (decodeExpression l1) with
        | .error e => .error e
        | .ok (o, l2) =>
          match inPathE (.Name "exprs") (decodeVecExpression l2) with
          | .error e => .error e
          | .ok (xs, l3) => .ok (.ActiveWithExprs o xs, l3)
    | 0x05 =>
      inPathE (.Variant "Element::PassiveWithExprs") <|
        match inPathE (.Name "ty") (decodeRefType l1) with
        | .error e => .error e
        | .ok (t, l2) =>
          match inPathE (.Name "exprs") (decodeVecExpression l2) with
          | .error e => .error e
          | .ok (xs, l3) => .ok (.PassiveWithExprs t xs, l3)
    | 0x06 =>
      inPathE (.Variant "Element::ActiveWithTableAndExprs") <|
        match inPathE (.Name "table") (decodeTableId l1) with
        | .error e => .error e
        | .ok (t, l2) =>
          match inPathE (.Name "offset") (decodeExpression l2) with
          | .error e => .error e
          | .ok (o, l3) =>
            match inPathE (.Name "ty") (decodeRefType l3) with
            | .error e => .error e
            | .ok (rt, l4) =>
              match inPathE (.Name "exprs") (decodeVecExpression l4) with
              | .error e => .error e
              | .ok (xs, l5) => .ok (.ActiveWithTableAndExprs t o rt xs, l5)
    | 0x07 =>
      inPathE (.Variant "Element::DeclarativeWithExprs") <|
        match inPathE (.Name "ty") (decodeRefType l1) with
        | .error e => .error e
        | .ok (t, l2) =>
          match inPathE (.Name "exprs") (decodeVecExpression l2) with
          | .error e => .error e
          | .ok (xs, l3) => .ok (.DeclarativeWithExprs t xs, l3)
    | _ => .error (unsupported "Element" d)

def encodeElement : Element → EncRes
  | .ActiveWithFuncs o fs => do
    let ob ← encodeInstrSeq o
    let fb ← encodeVecFuncId fs
    .ok (0x00 :: (ob ++ fb))
  | .PassiveWithFuncs k fs => do
    let fb ← encodeVecFuncId fs
    .ok (0x01 :: (encodeElemKind k ++ fb))
  | .ActiveWithTableAndFuncs t o k fs => do
    let ob ← encodeInstrSeq o
    let fb ← encodeVecFuncId fs
    .ok (0x02 :: (encodeIndex t.index ++ ob ++ encodeElemKind k ++ fb))
  | .DeclarativeWithFuncs k fs => do
    let fb ← encodeVecFuncId fs
    .ok (0x03 :: (encodeElemKind k ++ fb))
  | .ActiveWithExprs o xs => do
    let ob ← encodeInstrSeq o
    let xb ← encodeVecExpression xs
    .ok (0x04 :: (ob ++ xb))
  | .PassiveWithExprs t xs => do
    let xb ← encodeVecExpression xs
    .ok (0x05 :: (encodeRefType t ++ xb))
  | .ActiveWithTableAndExprs t o rt xs => do
    let ob ← encodeInstrSeq o
    let xb ← encodeVecExpression xs
    .ok (0x06 :: (encodeIndex t.index ++ ob ++ encodeRefType rt ++ xb))
  | .DeclarativeWithExprs t xs => do
    let xb ← encodeVecExpression xs
    .ok (0x07 :: (encodeRefType t ++ xb))

/-- Local groups (`sections.rs Locals`; the Rust field is named `repeat`,
renamed here because `repeat` is reserved in Lean). -/
structure Locals where
  repeatCount : Nat
  ty : ValueType
deriving BEq

def decodeLocals (l : Bytes) : DecRes Locals :=
  inPathE (.Variant "Locals") <|
    match inPathE (.Name "repeat") (decodeU32 l) with
    | .error e => .error e
    | .ok (r, l1) =>
      match inPathE (.Name "ty") (decodeValueType l1) with
      | .error e => .error e
      | .ok (t, l2) => .ok ({ repeatCount := r, ty := t }, l2)

def encodeLocals (x : Locals) : Bytes :=
  encodeU32 x.repeatCount ++ encodeValueType x.ty

/-- Exception tags (`sections.rs Exception`, struct discriminant `0x00`). -/
structure Exception where
  ty : TypeId
deriving BEq

def decodeException (l : Bytes) : DecRes Exception :=
  match decodeU8 l with
  | .error e => .error e
  | .ok (d, l1) =>
    if d = 0x00 then
      inPathE (.Variant "Exception") <|
        match inPathE (.Name "ty") (decodeTypeId l1) with
        | .error e => .error e
        | .ok (t, l2) => .ok (⟨t⟩, l2)
    else .error (unsupported "Exception" d)

def encodeException (x : Exception) : Bytes :=
  0x00 :: encodeIndex x.ty.index

/-- Function bodies (`sections.rs FuncBody`). -/
structure FuncBody where
  locals : List Locals
  expr : Expression
deriving BEq

def decodeFuncBody (l : Bytes) : DecRes FuncBody :=
  inPathE (.Variant "FuncBody") <|
    match inPathE (.Name "locals") (decodeVecCountable decodeLocals l) with
    | .error e => .error e
    | .ok (ls, l1) =>
      match inPathE (.Name "expr") (decodeExpression l1) with
      | .error e => .error e
      | .ok (x, l2) => .ok ({ locals := ls, expr := x }, l2)

def encodeFuncBody (f : FuncBody) : EncRes := do
  let ls ← encodeVecCountable (fun (x : Locals) => .ok (encodeLocals x)) f.locals
  let xb ← encodeInstrSeq f.expr
  .ok (ls ++ xb)

/-- Data segment initialization (`sections.rs DataInit`). -/
inductive DataInit where
  | Active (offset : Expression)
  | Passive
  | ActiveWithMemory (memory : MemId) (offset : Expression)
deriving BEq

def decodeDataInit (l : Bytes) : DecRes DataInit :=
  match decodeU8 l with
  | .error e => .error e
  | .ok (d, l1) =>
    match d with
    | 0x00 =>
      inPathE (.Variant "DataInit::Active") <|
        match inPathE (.Name "offset") (decodeExpression l1) with
        | .error e => .error e
        | .ok (o, l2) => .ok (.Active o, l2)
    | 0x01 => .ok (.Passive, l1)
    | 0x02 =>
      inPathE (.Variant "DataInit::ActiveWithMemory") <|
        match inPathE (.Name "memory") (decodeMemId l1) with
        | .error e => .error e
        | .ok (m, l2) =>
          match inPathE (.Name "offset") (decodeExpression l2) with
          | .error e => .error e
          | .ok (o, l3) => .ok (.ActiveWithMemory m o, l3)
    | _ => .error (unsupported "DataInit" d)

def encodeDataInit : DataInit → EncRes
  | .Active o => do
    let ob ← encodeInstrSeq o
    .ok (0x00 :: ob)
  | .Passive => .ok [0x01]
  | .ActiveWithMemory m o => do
    let ob ← encodeInstrSeq o
    .ok (0x02 :: (encodeIndex m.index ++ ob))

/-- Data segments (`sections.rs Data`): the init header, then the raw
`blob: Vec<u8>` — encoded verbatim (no length prefix) and decoded by
reading to the end of the enclosing stream. -/
structure Data where
  init : DataInit
  blob : Bytes
deriving BEq

def decodeData (l : Bytes) : DecRes Data :=
  inPathE (.Variant "Data") <|
    match inPathE (.Name "init") (decodeDataInit l) with
    | .error e => .error e
    | .ok (i, l1) =>
      match inPathE (.Name "blob") (decodeVecU8 l1) with
      | .error e => .error e
      | .ok (bs, l2) => .ok ({ init := i, blob := bs }, l2)

def encodeData (x : Data) : EncRes := do
  let ib ← encodeDataInit x.init
  .ok (ib ++ x.blob)

/-- Decoders of the standard section payloads (`define_sections!`). -/
def decodeTypePayload : Bytes → DecRes (List FuncType) :=
  decodeVecCountable decodeFuncType

def decodeImportPayload : Bytes → DecRes (List Import) :=
  decodeVecCountable decodeImport

def decodeFunctionPayload : Bytes → DecRes (List TypeId) :=
  decodeVecCountable decodeTypeId

def decodeTablePayload : Bytes → DecRes (List TableType) :=
  decodeVecCountable decodeTableType

def decodeMemoryPayload : Bytes → DecRes (List MemType) :=
  decodeVecCountable decodeMemType

def decodeExceptionPayload : Bytes → DecRes (List Exception) :=
  decodeVecCountable decodeException

def decodeGlobalPayload : Bytes → DecRes (List Global) :=
  decodeVecCountable decodeGlobal

def decodeExportPayload : Bytes → DecRes (List Export) :=
  decodeVecCountable decodeExport

def decodeElementPayload : Bytes → DecRes (List Element) :=
  decodeVecCountable decodeElement

def decodeCodePayload : Bytes → DecRes (List (Blob FuncBody)) :=
  decodeVecCountable (decodeBlob (α := FuncBody))

def decodeDataPayload : Bytes → DecRes (List Data) :=
  decodeVecCountable decodeData

/-- Encoders of the standard section payloads. -/
def encodeTypePayload : List FuncType → EncRes :=
  encodeVecCountable encodeFuncType

def encodeImportPayload : List Import → EncRes :=
  encodeVecCountable encodeImport

def encodeFunctionPayload : List TypeId → EncRes :=
  encodeVecCountable (fun (x : TypeId) => .ok (encodeIndex x.index))

def encodeTablePayload : List TableType → EncRes :=
  encodeVecCountable (fun t => .ok (encodeTableType t))

def encodeMemoryPayload : List MemType → EncRes :=
  encodeVecCountable (fun m => .ok (encodeMemType m))

def encodeExceptionPayload : List Exception → EncRes :=
  encodeVecCountable (fun x => .ok (encodeException x))

def encodeGlobalPayload : List Global → EncRes :=
  encodeVecCountable encodeGlobal

def encodeExportPayload : List Export → EncRes :=
  encodeVecCountable encodeExport

def encodeElementPayload : List Element → EncRes :=
  encodeVecCountable encodeElement

def encodeCodePayload : List (Blob FuncBody) → EncRes :=
  encodeVecCountable (encodeBlob encodeFuncBody)

def encodeDataPayload : List Data → EncRes :=
  encodeVecCountable encodeData

/-- Module sections (`define_sections!`): every variant wraps a length-framed
`Blob` of its payload. -/
inductive Section where
  | Custom (b : Blob CustomSection)
  | Type (b : Blob (List FuncType))
  | Import (b : Blob (List Wasmbin.Import))
  | Function (b : Blob (List TypeId))
  | Table (b : Blob (List TableType))
  | Memory (b : Blob (List MemType))
  | Exception (b : Blob (List Wasmbin.Exception))
  | Global (b : Blob (List Wasmbin.Global))
  | Export (b : Blob (List Wasmbin.Export))
  | Start (b : Blob FuncId)
  | Element (b : Blob (List Wasmbin.Element))
  | DataCount (b : Blob Nat)
  | Code (b : Blob (List (Blob FuncBody)))
  | Data (b : Blob (List Wasmbin.Data))

/-- `Section::kind`. -/
def Section.kind : Section → Kind
  | .Custom _ => .Custom
  | .Type _ => .Type
  | .Import _ => .Import
  | .Function _ => .Function
  | .Table _ => .Table
  | .Memory _ => .Memory
  | .Exception _ => .Exception
  | .Global _ => .Global
  | .Export _ => .Export
  | .Start _ => .Start
  | .Element _ => .Element
  | .DataCount _ => .DataCount
  | .Code _ => .Code
  | .Data _ => .Data

/-- `PartialEq for Section` (derived): same variant, equal blobs. -/
def beqSection (a b : Section) : Bool :=
  match a, b with
  | .Custom x, .Custom y => blobBeq decodeCustomSection beqCustomSection x y
  | .Type x, .Type y => blobBeq decodeTypePayload (· == ·) x y
  | .Import x, .Import y => blobBeq decodeImportPayload (· == ·) x y
  | .Function x, .Function y => blobBeq decodeFunctionPayload (· == ·) x y
  | .Table x, .Table y => blobBeq decodeTablePayload (· == ·) x y
  | .Memory x, .Memory y => blobBeq decodeMemoryPayload (· == ·) x y
  | .Exception x, .Exception y => blobBeq decodeExceptionPayload (· == ·) x y
  | .Global x, .Global y => blobBeq decodeGlobalPayload (· == ·) x y
  | .Export x, .Export y => blobBeq decodeExportPayload (· == ·) x y
  | .Start x, .Start y => blobBeq decodeFuncId (· == ·) x y
  | .Element x, .Element y => blobBeq decodeElementPayload (· == ·) x y
  | .DataCount x, .DataCount y => blobBeq decodeU32 (· == ·) x y
  | .Code x, .Code y =>
    blobBeq decodeCodePayload (listBeq (blobBeq decodeFuncBody (· == ·))) x y
  | .Data x, .Data y => blobBeq decodeDataPayload (· == ·) x y
  | _, _ => false

/-- `Section::maybe_decode_with_discriminant` (derived): dispatch on the
kind byte and decode the `Blob` lazily. -/
def maybeDecodeSection (d : Nat) (l : Bytes) :
    Except DecodeError (Option (Section × Bytes)) :=
  match d with
  | 0 =>
    inPathO (.Variant "Section::Custom") <|
      match decodeBlob (α := CustomSection) l with
      | .error e => .error e
      | .ok (b, l1) => .ok (some (.Custom b, l1))
  | 1 =>
    inPathO (.Variant "Section::Type") <|
      match decodeBlob (α := List FuncType) l with
      | .error e => .error e
      | .ok (b, l1) => .ok (some (.Type b, l1))
  | 2 =>
    inPathO (.Variant "Section::Import") <|
      match decodeBlob (α := List Import) l with
      | .error e => .error e
      | .ok (b, l1) => .ok (some (.Import b, l1))
  | 3 =>
    inPathO (.Variant "Section::Function") <|
      match decodeBlob (α := List TypeId) l with
      | .error e => .error e
      | .ok (b, l1) => .ok (some (.Function b, l1))
  | 4 =>
    inPathO (.Variant "Section::Table") <|
      match decodeBlob (α := List TableType) l with
      | .error e => .error e
      | .ok (b, l1) => .ok (some (.Table b, l1))
  | 5 =>
    inPathO (.Variant "Section::Memory") <|
      match decodeBlob (α := List MemType) l with
      | .error e => .error e
      | .ok (b, l1) => .ok (some (.Memory b, l1))
  | 13 =>
    inPathO (.Variant "Section::Exception") <|
      match decodeBlob (α := List Exception) l with
      | .error e => .error e
      | .ok (b, l1) => .ok (some (.Exception b, l1))
  | 6 =>
    inPathO (.Variant "Section::Global") <|
      match decodeBlob (α := List Global) l with
      | .error e => .error e
      | .ok (b, l1) => .ok (some (.Global b, l1))
  | 7 =>
    inPathO (.Variant "Section::Export") <|
      match decodeBlob (α := List Export) l with
      | .error e => .error e
      | .ok (b, l1) => .ok (some (.Export b, l1))
  | 8 =>
    inPathO (.Variant "Section::Start") <|
      match decodeBlob (α := FuncId) l with
      | .error e => .error e
      | .ok (b, l1) => .ok (some (.Start b, l1))
  | 9 =>
    inPathO (.Variant "Section::Element") <|
      match decodeBlob (α := List Element) l with
      | .error e => .error e
      | .ok (b, l1) => .ok (some (.Element b, l1))
  | 12 =>
    inPathO (.Variant "Section::DataCount") <|
      match decodeBlob (α := Nat) l with
      | .error e => .error e
      | .ok (b, l1) => .ok (some (.DataCount b, l1))
  | 10 =>
    inPathO (.Variant "Section::Code") <|
      match decodeBlob (α := List (Blob FuncBody)) l with
      | .error e => .error e
      | .ok (b, l1) => .ok (some (.Code b, l1))
  | 11 =>
    inPathO (.Variant "Section::Data") <|
      match decodeBlob (α := List Data) l with
      | .error e => .error e
      | .ok (b, l1) => .ok (some (.Data b, l1))
  | _ => .ok none

/-- `Section::decode_with_discriminant`. -/
def decodeSectionWithDiscriminant (d : Nat) (l : Bytes) : DecRes Section :=
  match maybeDecodeSection d l with
  | .error e => .error e
  | .ok (some (s, rest)) => .ok (s, rest)
  | .ok none => .error (unsupported "Section" d)

/-- `Section::encode` (derived): the kind byte, then the blob. -/
def encodeSection : Section → EncRes
  | .Custom b => do
    let p ← encodeBlob encodeCustomSection b
    .ok (0 :: p)
  | .Type b => do
    let p ← encodeBlob encodeTypePayload b
    .ok (1 :: p)
  | .Import b => do
    let p ← encodeBlob encodeImportPayload b
    .ok (2 :: p)
  | .Function b => do
    let p ← encodeBlob encodeFunctionPayload b
    .ok (3 :: p)
  | .Table b => do
    let p ← encodeBlob encodeTablePayload b
    .ok (4 :: p)
  | .Memory b => do
    let p ← encodeBlob encodeMemoryPayload b
    .ok (5 :: p)
  | .Exception b => do
    let p ← encodeBlob encodeExceptionPayload b
    .ok (13 :: p)
  | .Global b => do
    let p ← encodeBlob encodeGlobalPayload b
    .ok (6 :: p)
  | .Export b => do
    let p ← encodeBlob encodeExportPayload b
    .ok (7 :: p)
  | .Start b => do
    let p ← encodeBlob (fun (x : FuncId) => .ok (encodeIndex x.index)) b
    .ok (8 :: p)
  | .Element b => do
    let p ← encodeBlob encodeElementPayload b
    .ok (9 :: p)
  | .DataCount b => do
    let p ← encodeBlob (fun (n : Nat) => .ok (encodeU32 n)) b
    .ok (12 :: p)
  | .Code b => do
    let p ← encodeBlob encodeCodePayload b
    .ok (10 :: p)
  | .Data b => do
    let p ← encodeBlob encodeDataPayload b
    .ok (11 :: p)

/-- The section-order error (`sections.rs SectionOrderError`). -/
structure SectionOrderError where
  current : Kind
  prev : Kind
deriving BEq, DecidableEq

/-- The section-order tracker (`sections.rs SectionOrderTracker`), whose
default state is the sentinel lowest kind `Custom`. -/
structure SectionOrderTracker where
  last_kind : Kind
deriving BEq, DecidableEq

/-- `SectionOrderTracker::try_add` in state-passing form: customs are
accepted without advancing; a kind strictly above the tracked one advances
the tracker; anything else is a `SectionOrderError`. -/
def SectionOrderTracker.tryAdd (t : SectionOrderTracker) (s : Section) :
    Except SectionOrderError SectionOrderTracker :=
  if s.kind = .Custom then .ok t
  else if (s.kind).cmp t.last_kind = .gt then .ok ⟨s.kind⟩
  else .error { prev := t.last_kind, current := s.kind }

/-- `Encode for [Section]`: run the order tracker over the list, encoding
each section after it is accepted. -/
def encodeSectionsAux (t : SectionOrderTracker) : List Section → EncRes
  | [] => .ok []
  | s :: rest =>
    match t.tryAdd s with
    | .error e => .error (.SectionOutOfOrder e.prev e.current)
    | .ok t2 => do
      let h ← encodeSection s
      let tl ← encodeSectionsAux t2 rest
      .ok (h ++ tl)

def encodeSections : List Section → EncRes :=
  encodeSectionsAux ⟨.Custom⟩

/-- The loop body of `Decode for Vec<Section>`: read an optional kind byte
(end of input ends the list), decode the section, pass it to the order
tracker, and attach the section index to any error from either step.
Fuel as in `decodeExpression` (each iteration consumes the kind byte). -/
def decodeSectionsAux : Nat → SectionOrderTracker → Nat → Bytes → DecRes (List Section)
  | 0, _, _, _ => .error (err .Io)
  | fuel + 1, t, idx, l =>
    match decodeOptionU8 l with
    | .error e => .error e
    | .ok (none, l1) => .ok ([], l1)
    | .ok (some d, l1) =>
      let step : DecRes (Section × SectionOrderTracker) :=
        match decodeSectionWithDiscriminant d l1 with
        | .error e => .error e
        | .ok (s, l2) =>
          match t.tryAdd s with
          | .error oe => .error (err (.SectionOutOfOrder oe.prev oe.current))
          | .ok t2 => .ok ((s, t2), l2)
      match inPathE (.Index idx) step with
      | .error e => .error e
      | .ok ((s, t2), l2) =>
        match decodeSectionsAux fuel t2 (idx + 1) l2 with
        | .error e => .error e
        | .ok (ss, l3) => .ok (s :: ss, l3)

/-- `Decode for Vec<Section>`. -/
def decodeSections (l : Bytes) : DecRes (List Section) :=
  decodeSectionsAux (l.length + 1) ⟨.Custom⟩ 0 l

/-- The module magic and version prefix (`module.rs MAGIC_AND_VERSION`). -/
def magicBytes : Bytes := [0x00, 0x61, 0x73, 0x6D, 0x01, 0x00, 0x00, 0x00]

/-- `MagicAndVersion::decode` (via `encode_decode_as!`): read 8 bytes and
compare; a mismatch is `InvalidMagic` with the actual bytes. -/
def decodeMagic (l : Bytes) : DecRes Unit :=
  match decodeByteArray 8 l with
  | .error e => .error e
  | .ok (bs, rest) =>
    if bs = magicBytes then .ok ((), rest) else .error (err (.InvalidMagic bs))

/-- WebAssembly modules (`module.rs Module`): the ordered section list. -/
structure Module where
  sections : List Section

/-- `Module::decode` (via `ModuleRepr`): magic and version, then sections. -/
def decodeModule (l : Bytes) : DecRes Module :=
  inPathE (.Variant "ModuleRepr") <|
    match inPathE (.Name "magic_and_version") (decodeMagic l) with
    | .error e => .error e
    | .ok (_, l1) =>
      match inPathE (.Name "sections") (decodeSections l1) with
      | .error e => .error e
      | .ok (ss, l2) => .ok (⟨ss⟩, l2)

/-- `Module::encode` (via `ModuleRepr`): the magic prefix, then the sections
(with the order check). -/
def encodeModule (m : Module) : EncRes := do
  let ss ← encodeSections m.sections
  .ok (magicBytes ++ ss)

/-- `PartialEq for Module` (derived): element-wise section equality. -/
def beqModule (a b : Module) : Bool :=
  listBeq beqSection a.sections b.sections

/-- The scan of `Module::find_or_insert_std_section`: walk the sections,
comparing each kind against the requested one with `Kind::cmp`; `Less`
continues, `Equal` stops without inserting, `Greater` stops and inserts
before that position.  Returns the index and whether to insert. -/
def findOrInsertLoop (k : Kind) : List Section → Nat → Option (Nat × Bool)
  | [], _ => none
  | s :: rest, i =>
    match (Section.kind s).cmp k with
    | .lt => findOrInsertLoop k rest (i + 1)
    | .eq => some (i, false)
    | .gt => some (i, true)

/-- `Module::find_or_insert_std_section`, returning the updated module and
the index at which the section of the requested kind lives. -/
def findOrInsertStdSection (m : Module) (k : Kind) (newSec : Section) : Module × Nat :=
  match findOrInsertLoop k m.sections 0 with
  | none => (⟨m.sections ++ [newSec]⟩, m.sections.length)
  | some (i, true) => (⟨m.sections.insertIdx i newSec⟩, i)
  | some (i, false) => (m, i)

/-- Visitor errors (`visit.rs VisitError`), specialized to a callback that
never fails (as in the crate's own traversals such as
`visit_mut(|()| {})` in the fuzz targets): only the `LazyDecode` case can
occur, carrying the decode error of a lazily materialized node. -/
inductive VisitError where
  | LazyDecode (e : DecodeError)
deriving BEq, DecidableEq

/-- `VisitError::in_path`: only lazy-decode errors accumulate a path. -/
def VisitError.inPath (v : VisitError) (item : PathItem) : VisitError :=
  match v with
  | .LazyDecode e => .LazyDecode (e.inPath item)

/-- Attach a path item to a visit result. -/
def inPathV (item : PathItem) : Except VisitError Unit → Except VisitError Unit
  | .error e => .error (e.inPath item)
  | .ok v => .ok v

/-- `Visit for Lazy<T>` (`lazy.rs`): materialize the contents (decoding on
demand) and visit them; a decode failure stops the traversal with
`VisitError::LazyDecode`. -/
def visitLazy (dec : Bytes → DecRes α) (vp : α → Except VisitError Unit)
    (lz : Lazy α) : Except VisitError Unit :=
  match lz.tryContents dec with
  | .ok v => vp v
  | .error e => .error (.LazyDecode e)

/-- Visit for `Blob<T>`.  Modelled from the spec (§4.9: lazies are entered
by first materializing their contents; the snapshot's `blob.rs` predates the
`Lazy`-based blob): visiting a blob visits its lazy contents. -/
def visitBlob (dec : Bytes → DecRes α) (vp : α → Except VisitError Unit)
    (b : Blob α) : Except VisitError Unit :=
  visitLazy dec vp b.contents

/-- `Visit for Vec<T>` (`collections.rs`): visit each element, attaching its
index to errors. -/
def visitListIdx (f : α → Except VisitError Unit) : Nat → List α → Except VisitError Unit
  | _, [] => .ok ()
  | i, x :: rest =>
    match inPathV (.Index i) (f x) with
    | .error e => .error e
    | .ok _ => visitListIdx f (i + 1) rest

def visitList (f : α → Except VisitError Unit) (l : List α) : Except VisitError Unit :=
  visitListIdx f 0 l

/-- Visit for `NameSubSection` (derived): each variant materializes its
blob; the blob payloads (strings and name maps) have no further lazy
children, so their own visits cannot fail. -/
def visitNameSubSection : NameSubSection → Except VisitError Unit
  | .Module b =>
    inPathV (.Variant "NameSubSection::Module") (visitBlob decodeStr (fun _ => .ok ()) b)
  | .Func b =>
    inPathV (.Variant "NameSubSection::Func")
      (visitBlob (decodeNameMap decodeFuncId decodeStr) (fun _ => .ok ()) b)
  | .Local b =>
    inPathV (.Variant "NameSubSection::Local")
      (visitBlob (decodeNameMap decodeFuncId (decodeNameMap decodeLocalId decodeStr))
        (fun _ => .ok ()) b)

/-- `Visit for CustomSection` (hand-written in `define_custom_sections!`):
the result of visiting the payload is computed and then dropped —
`drop(match self { .. })` — so the traversal always reports success,
swallowing lazy-decode failures inside the payload. -/
def visitCustomSection (cs : CustomSection) : Except VisitError Unit :=
  let _child : Except VisitError Unit :=
    match cs with
    | .Name p => visitLazy decodeVecNameSubSection (visitList visitNameSubSection) p
    | .Producers p => visitLazy decodeVecProducerField (fun _ => .ok ()) p
    | .ExternalDebugInfo p => visitLazy decodeStr (fun _ => .ok ()) p
    | .SourceMappingUrl p => visitLazy decodeStr (fun _ => .ok ()) p
    | .BuildId _ => .ok ()
    | .Other _ => .ok ()
  .ok ()

/-- Visit for the `Code` payload: a vector of function-body blobs, each of
which must be materialized. -/
def visitCodePayload : List (Blob FuncBody) → Except VisitError Unit :=
  visitList (visitBlob decodeFuncBody (fun _ => .ok ()))

/-- Visit for `Section` (derived): each variant visits its blob, wrapping
errors in the variant path.  Payloads other than `Custom` and `Code` have no
lazy children of their own, so visiting them cannot fail further. -/
def visitSection : Section → Except VisitError Unit
  | .Custom b =>
    inPathV (.Variant "Section::Custom") (visitBlob decodeCustomSection visitCustomSection b)
  | .Type b =>
    inPathV (.Variant "Section::Type") (visitBlob decodeTypePayload (fun _ => .ok ()) b)
  | .Import b =>
    inPathV (.Variant "Section::Import") (visitBlob decodeImportPayload (fun _ => .ok ()) b)
  | .Function b =>
    inPathV (.Variant "Section::Function") (visitBlob decodeFunctionPayload (fun _ => .ok ()) b)
  | .Table b =>
    inPathV (.Variant "Section::Table") (visitBlob decodeTablePayload (fun _ => .ok ()) b)
  | .Memory b =>
    inPathV (.Variant "Section::Memory") (visitBlob decodeMemoryPayload (fun _ => .ok ()) b)
  | .Exception b =>
    inPathV (.Variant "Section::Exception") (visitBlob decodeExceptionPayload (fun _ => .ok ()) b)
  | .Global b =>
    inPathV (.Variant "Section::Global") (visitBlob decodeGlobalPayload (fun _ => .ok ()) b)
  | .Export b =>
    inPathV (.Variant "Section::Export") (visitBlob decodeExportPayload (fun _ => .ok ()) b)
  | .Start b =>
    inPathV (.Variant "Section::Start") (visitBlob decodeFuncId (fun _ => .ok ()) b)
  | .Element b =>
    inPathV (.Variant "Section::Element") (visitBlob decodeElementPayload (fun _ => .ok ()) b)
  | .DataCount b =>
    inPathV (.Variant "Section::DataCount") (visitBlob decodeU32 (fun _ => .ok ()) b)
  | .Code b =>
    inPathV (.Variant "Section::Code") (visitBlob decodeCodePayload visitCodePayload b)
  | .Data b =>
    inPathV (.Variant "Section::Data") (visitBlob decodeDataPayload (fun _ => .ok ()) b)

/-- Visit for `Module` (derived): the `sections` field. -/
def visitModule (m : Module) : Except VisitError Unit :=
  inPathV (.Variant "Module")
    (inPathV (.Name "sections") (visitList visitSection m.sections))

/-- C4: the comparison used by the order tracker and by
`find_or_insert_std_section` follows the declared logical order, not the
wire discriminant bytes: `DataCount` (byte 12) orders strictly before `Code`
(byte 10) and `Data` (byte 11); `Exception` (byte 13) orders strictly
between `Memory` (5) and `Global` (6); and the remaining kinds order as
`Custom < Type < Import < Function < Table < Memory < Global < Export <
Start < Element`.  The last two conjuncts exercise that order through
`SectionOrderTracker::try_add` and the `find_or_insert_std_section` scan,
both of which compare kinds with `Kind.cmp`. -/
theorem kind_logical_order :
    (Kind.cmp .DataCount .Code = .lt ∧ Kind.cmp .DataCount .Data = .lt) ∧
    (Kind.cmp .Memory .Exception = .lt ∧ Kind.cmp .Exception .Global = .lt) ∧
    (Kind.cmp .Custom .Type = .lt ∧ Kind.cmp .Type .Import = .lt ∧
     Kind.cmp .Import .Function = .lt ∧ Kind.cmp .Function .Table = .lt ∧
     Kind.cmp .Table .Memory = .lt ∧ Kind.cmp .Memory .Global = .lt ∧
     Kind.cmp .Global .Export = .lt ∧ Kind.cmp .Export .Start = .lt ∧
     Kind.cmp .Start .Element = .lt) ∧
    (Kind.discriminant .DataCount = 12 ∧ Kind.discriminant .Code = 10 ∧
     Kind.discriminant .Data = 11 ∧ Kind.discriminant .Exception = 13 ∧
     Kind.discriminant .Memory = 5 ∧ Kind.discriminant .Global = 6) ∧
    (SectionOrderTracker.tryAdd ⟨.DataCount⟩ (Section.Code (Blob.fromValue [])) = .ok ⟨.Code⟩) ∧
    (findOrInsertLoop .Exception
      [Section.Memory (Blob.fromValue []), Section.Global (Blob.fromValue [])] 0 = some (1, true)) :=
  ⟨⟨rfl, rfl⟩, ⟨rfl, rfl⟩, ⟨rfl, rfl, rfl, rfl, rfl, rfl, rfl, rfl, rfl⟩,
   ⟨rfl, rfl, rfl, rfl, rfl, rfl⟩, rfl, rfl⟩

/-- C6: for every byte vector `b`, two lazies constructed in input state
from `b` (`Lazy::from_raw(b)`) compare equal without decoding the bytes:
the equality holds for an arbitrary payload decoder — in particular for one
under which `b` does not decode at all (second conjunct). -/
theorem lazy_from_raw_eq_without_decoding :
    ∀ (α : Type) (dec : Bytes → DecRes α) (beq : α → α → Bool) (b : Bytes),
      lazyBeq dec beq (Lazy.fromRaw b) (Lazy.fromRaw b) = true ∧
      lazyBeq (fun _ => .error (err .Io)) beq (Lazy.fromRaw b) (Lazy.fromRaw b) = true := by
  intro α dec beq b
  constructor <;> simp [lazyBeq, Lazy.fromRaw]

/-- C10: when `Lazy::try_contents_mut` is called on an input-state lazy and
decoding the raw bytes fails, the error is returned and the lazy remains in
input state with its raw bytes unchanged: a subsequent encode still emits
the original bytes verbatim and `try_as_raw` still returns them. -/
theorem try_contents_mut_error_preserves_state :
    ∀ (α : Type) (dec : Bytes → DecRes α) (b : Bytes) (e : DecodeError),
      decodeRaw dec b = .error e →
      Lazy.tryContentsMut dec (Lazy.fromRaw b) = (.error e, Lazy.fromRaw b) ∧
      (∀ enc : α → EncRes, Lazy.encode enc (Lazy.fromRaw b) = .ok b) ∧
      Lazy.tryAsRaw (α := α) (Lazy.fromRaw b) = .ok b := by
  intro α dec b e h
  refine ⟨?_, fun enc => rfl, rfl⟩
  simp [Lazy.tryContentsMut, Lazy.fromRaw, h]

/-- C10 witness: the byte `0x02` is not a valid `bool`, so
`try_contents_mut` fails and leaves the lazy in input state. -/
theorem try_contents_mut_error_preserves_state_witness :
    decodeRaw decodeBool [2] = .error (unsupported "BoolRepr" 2) ∧
    (Lazy.tryContentsMut decodeBool (Lazy.fromRaw [2]) =
        (.error (unsupported "BoolRepr" 2), Lazy.fromRaw [2]) ∧
      (∀ enc : Bool → EncRes, Lazy.encode enc (Lazy.fromRaw [2]) = .ok [2]) ∧
      Lazy.tryAsRaw (α := Bool) (Lazy.fromRaw [2]) = .ok [2]) :=
  ⟨rfl, try_contents_mut_error_preserves_state Bool decodeBool [2] (unsupported "BoolRepr" 2) rfl⟩

/-- C1: the arbitrary-roundtrip property `decode(encode(m)) == m` fails on
the code as written.  A module with one data section holding two (empty,
passive) segments encodes fine, and the bytes decode back, but the
re-decoded module is not equal to the original: `Data::blob` is encoded
with no length prefix yet decoded with read-to-end, so the second segment's
bytes are absorbed into the first's blob and the count-prefixed vector no
longer parses (fourth conjunct shows the decoded payload erroring; the
stable-second-encoding clause alone does hold on this input). -/
theorem data_section_roundtrip_bug :
    encodeModule ⟨[Section.Data (Blob.fromValue [⟨.Passive, []⟩, ⟨.Passive, []⟩])]⟩ =
      .ok (magicBytes ++ [11, 3, 2, 1, 1]) ∧
    decodeModule (magicBytes ++ [11, 3, 2, 1, 1]) =
      .ok (⟨[Section.Data ⟨.FromInput [2, 1, 1]⟩]⟩, []) ∧
    beqModule ⟨[Section.Data (Blob.fromValue [⟨.Passive, []⟩, ⟨.Passive, []⟩])]⟩
      ⟨[Section.Data ⟨.FromInput [2, 1, 1]⟩]⟩ = false ∧
    encodeModule ⟨[Section.Data ⟨.FromInput [2, 1, 1]⟩]⟩ = .ok (magicBytes ++ [11, 3, 2, 1, 1]) ∧
    decodeRaw decodeDataPayload [2, 1, 1] = .error ⟨[.Name "init", .Variant "Data"], .Io⟩ :=
  ⟨rfl, rfl, rfl, rfl, rfl⟩

/-- C9 counterexample: a traversal of the enclosing module can be failed by
a custom section.  A custom section whose framed bytes do not decode to a
`CustomSection` value (here: name length 1 followed by the invalid UTF-8
byte `0xFF`) makes `visit` of the whole module return a `LazyDecode` error,
raised by the enclosing blob before the custom-section visitor runs. -/
theorem custom_section_bad_name_fails_module_visit :
    visitModule ⟨[Section.Custom ⟨.FromInput [1, 0xFF]⟩]⟩ =
      .error (.LazyDecode ⟨[.Variant "Section::Custom", .Index 0, .Name "sections",
        .Variant "Module"], .Utf8⟩) := rfl

/-- C9 (amended): visiting a `CustomSection` value never returns an error —
any failure raised while traversing the section's payload, in particular a
lazy-decode failure of its contents (second conjunct decodes garbage inside
a recognized `name` section), is discarded and the traversal reports
success.  A traversal of the enclosing module, however, can still fail on a
custom section whose framed bytes do not decode to a `CustomSection` value
at all (malformed name string), because that failure arises in the
enclosing blob's lazy materialization before `CustomSection`'s visitor runs
(third conjunct). -/
theorem custom_section_visit_never_fails :
    (∀ cs : CustomSection, visitCustomSection cs = .ok ()) ∧
    visitCustomSection (.Name (Lazy.fromRaw [0xFF])) = .ok () ∧
    visitModule ⟨[Section.Custom ⟨.FromInput [1, 0xFF]⟩]⟩ =
      .error (.LazyDecode ⟨[.Variant "Section::Custom", .Index 0, .Name "sections",
        .Variant "Module"], .Utf8⟩) :=
  ⟨fun _ => rfl, rfl, rfl⟩

/-- Little-endian serializations have the expected length. -/
theorem leBytes_length (k n : Nat) : (leBytes k n).length = k := by
  induction k generalizing n with
  | zero => rfl
  | succ k ih => simp [leBytes, ih]

/-- Reading back a little-endian serialization recovers the value modulo the
width. -/
theorem fromLeBytes_leBytes (k n : Nat) : fromLeBytes (leBytes k n) = n % 256 ^ k := by
  induction k generalizing n with
  | zero => simp [leBytes, fromLeBytes, Nat.mod_one]
  | succ k ih =>
    simp only [leBytes, fromLeBytes, ih]
    have h256 : (256 : Nat) ^ (k + 1) = 256 * 256 ^ k := by ring
    rw [h256, Nat.mod_mul]

/-- Little-endian serialization is injective on values that fit the width. -/
theorem leBytes_inj (k n m : Nat) (hn : n < 256 ^ k) (hm : m < 256 ^ k) :
    leBytes k n = leBytes k m ↔ n = m := by
  constructor
  · intro h
    have := congrArg fromLeBytes h
    rwa [fromLeBytes_leBytes, fromLeBytes_leBytes, Nat.mod_eq_of_lt hn,
      Nat.mod_eq_of_lt hm] at this
  · intro h; rw [h]

/-- Reading a fixed-width little-endian value back after serializing it. -/
theorem decodeLeBytes_encode (k : Nat) (p : Nat) (rest : Bytes) (hp : p < 256 ^ k) :
    decodeByteArray k (leBytes k p ++ rest) = .ok (leBytes k p, rest) ∧
    fromLeBytes (leBytes k p) = p := by
  have hlen : (leBytes k p).length = k := leBytes_length k p
  have htake : (leBytes k p ++ rest).take k = leBytes k p := by
    have := List.take_left (leBytes k p) rest
    rwa [hlen] at this
  have hdrop : (leBytes k p ++ rest).drop k = rest := by
    have := List.drop_left (leBytes k p) rest
    rwa [hlen] at this
  have hnotlt : ¬ (leBytes k p ++ rest).length < k := by
    simp [List.length_append, hlen]
  refine ⟨?_, ?_⟩
  · rw [decodeByteArray, if_neg hnotlt, htake, hdrop]
  · rw [fromLeBytes_leBytes, Nat.mod_eq_of_lt hp]

/-- The `f32` codec round-trips every bit pattern exactly. -/
theorem decodeF32_encodeF32 (p : Nat) (rest : Bytes) (hp : p < 2 ^ 32) :
    decodeF32 (encodeF32 p ++ rest) = .ok (p, rest) := by
  have h := decodeLeBytes_encode 4 p rest (by norm_num at hp ⊢; omega)
  rw [decodeF32, encodeF32, h.1]
  show Except.ok (fromLeBytes (leBytes 4 p), rest) = _
  rw [h.2]

/-- The `f64` codec round-trips every bit pattern exactly. -/
theorem decodeF64_encodeF64 (p : Nat) (rest : Bytes) (hp : p < 2 ^ 64) :
    decodeF64 (encodeF64 p ++ rest) = .ok (p, rest) := by
  have h := decodeLeBytes_encode 8 p rest (by norm_num at hp ⊢; omega)
  rw [decodeF64, encodeF64, h.1]
  show Except.ok (fromLeBytes (leBytes 8 p), rest) = _
  rw [h.2]

/-- C5 counterexample: two `FloatConst<f32>` values holding NaNs with
different payload bits compare equal, yet feed different byte streams to
the hasher (`Hash` writes the raw `to_ne_bytes`), so they do not hash to
the same value as the claim states. -/
theorem nan_payload_hash_mismatch :
    ((⟨0x7FC00000⟩ : FloatConst32) == (⟨0x7FC00001⟩ : FloatConst32)) = true ∧
    floatConst32HashBytes ⟨0x7FC00000⟩ ≠ floatConst32HashBytes ⟨0x7FC00001⟩ := by
  constructor
  · rfl
  · decide

/-- C5 (amended): any two `FloatConst` values whose floats are both NaN
compare equal; the hasher is fed the raw bit-pattern bytes, so two values
hash identically exactly when their bit patterns coincide (NaNs with
different payloads therefore hash differently); and encoding then decoding
any float reproduces its bit pattern exactly, including NaN payloads. -/
theorem float_const_nan_eq_and_bit_roundtrip :
    (∀ a b : FloatConst32, isNan32 a.value = true → isNan32 b.value = true →
      (a == b) = true) ∧
    (∀ a b : FloatConst64, isNan64 a.value = true → isNan64 b.value = true →
      (a == b) = true) ∧
    (∀ a b : FloatConst32, a.value < 2 ^ 32 → b.value < 2 ^ 32 →
      (floatConst32HashBytes a = floatConst32HashBytes b ↔ a.value = b.value)) ∧
    (∀ a b : FloatConst64, a.value < 2 ^ 64 → b.value < 2 ^ 64 →
      (floatConst64HashBytes a = floatConst64HashBytes b ↔ a.value = b.value)) ∧
    (∀ (p : Nat) (rest : Bytes), p < 2 ^ 32 → decodeF32 (encodeF32 p ++ rest) = .ok (p, rest)) ∧
    (∀ (p : Nat) (rest : Bytes), p < 2 ^ 64 → decodeF64 (encodeF64 p ++ rest) = .ok (p, rest)) := by
  refine ⟨?_, ?_, ?_, ?_, ?_, ?_⟩
  · intro a b ha hb
    show floatConst32Beq a b = true
    simp [floatConst32Beq, ha, hb]
  · intro a b ha hb
    show floatConst64Beq a b = true
    simp [floatConst64Beq, ha, hb]
  · intro a b ha hb
    exact leBytes_inj 4 a.value b.value (by norm_num at ha ⊢; omega) (by norm_num at hb ⊢; omega)
  · intro a b ha hb
    exact leBytes_inj 8 a.value b.value (by norm_num at ha ⊢; omega) (by norm_num at hb ⊢; omega)
  · intro p rest hp
    exact decodeF32_encodeF32 p rest hp
  · intro p rest hp
    exact decodeF64_encodeF64 p rest hp

/-- C5 witness: concrete NaN patterns compare equal, a concrete pattern
hashes consistently, and concrete `f32`/`f64` NaN payloads round-trip. -/
theorem float_const_nan_eq_and_bit_roundtrip_witness :
    (isNan32 0x7FC00000 = true ∧ isNan32 0x7FFFFFFF = true ∧
      ((⟨0x7FC00000⟩ : FloatConst32) == (⟨0x7FFFFFFF⟩ : FloatConst32)) = true) ∧
    ((0x3F800000 : Nat) < 2 ^ 32 ∧
      (floatConst32HashBytes ⟨0x3F800000⟩ = floatConst32HashBytes ⟨0x3F800000⟩ ↔
        (0x3F800000 : Nat) = 0x3F800000)) ∧
    ((0x7FC00001 : Nat) < 2 ^ 32 ∧
      decodeF32 (encodeF32 0x7FC00001 ++ [0xAA]) = .ok (0x7FC00001, [0xAA])) ∧
    ((0x7FF8000000000001 : Nat) < 2 ^ 64 ∧
      decodeF64 (encodeF64 0x7FF8000000000001 ++ []) = .ok (0x7FF8000000000001, [])) :=
  ⟨⟨rfl, rfl, float_const_nan_eq_and_bit_roundtrip.1 ⟨0x7FC00000⟩ ⟨0x7FFFFFFF⟩ rfl rfl⟩,
   ⟨by norm_num, float_const_nan_eq_and_bit_roundtrip.2.2.1 ⟨0x3F800000⟩ ⟨0x3F800000⟩
      (by norm_num) (by norm_num)⟩,
   ⟨by norm_num, float_const_nan_eq_and_bit_roundtrip.2.2.2.2.1 0x7FC00001 [0xAA] (by norm_num)⟩,
   ⟨by norm_num, float_const_nan_eq_and_bit_roundtrip.2.2.2.2.2 0x7FF8000000000001 [] (by norm_num)⟩⟩

/-- The LEB128 reader never hands back more bytes than it was given. -/
theorem lebReadUnsignedAux_rest_le (l : Bytes) :
    ∀ shift acc v rem, lebReadUnsignedAux shift acc l = .ok (v, rem) →
      rem.length ≤ l.length := by
  induction l with
  | nil => intro shift acc v rem h; simp [lebReadUnsignedAux] at h
  | cons b rest ih =>
    intro shift acc v rem h
    rw [lebReadUnsignedAux] at h
    by_cases hc : shift = 63 ∧ b ≠ 0 ∧ b ≠ 1
    · rw [if_pos hc] at h
      cases hs : skipContinuation b rest <;> rw [hs] at h <;> simp at h
    · rw [if_neg hc] at h
      by_cases hb : b < 128
      · rw [if_pos hb] at h
        simp at h
        simp [h.2]
      · rw [if_neg hb] at h
        have := ih _ _ _ _ h
        simp
        omega

/-- A successful `u32` decode reads at most the 5-byte take limit. -/
theorem decodeU32_consumed (l : Bytes) (v : Nat) (rest : Bytes)
    (h : decodeU32 l = .ok (v, rest)) : l.length - rest.length ≤ 5 := by
  rw [decodeU32] at h
  cases hr : lebReadUnsignedAux 0 0 (l.take 5) with
  | error e => rw [hr] at h; simp at h
  | ok p =>
    obtain ⟨w, rem⟩ := p
    rw [hr] at h
    by_cases hv : w < 2 ^ 32
    · simp only [hv, if_true] at h
      have h2 : v = w ∧ rem ++ List.drop 5 l = rest := by
        cases h; exact ⟨rfl, rfl⟩
      have hle := lebReadUnsignedAux_rest_le (l.take 5) 0 0 w rem hr
      have h5 : (l.take 5).length = min 5 l.length := List.length_take 5 l
      have : rest.length = rem.length + (l.length - 5) := by
        rw [← h2.2]; simp
      omega
    · simp only [hv, if_false] at h; cases h

/-- A successful `u64` decode reads at most the 10-byte take limit. -/
theorem decodeU64_consumed (l : Bytes) (v : Nat) (rest : Bytes)
    (h : decodeU64 l = .ok (v, rest)) : l.length - rest.length ≤ 10 := by
  rw [decodeU64] at h
  cases hr : lebReadUnsignedAux 0 0 (l.take 10) with
  | error e => rw [hr] at h; simp at h
  | ok p =>
    obtain ⟨w, rem⟩ := p
    rw [hr] at h
    have h2 : v = w ∧ rem ++ List.drop 10 l = rest := by
      cases h; exact ⟨rfl, rfl⟩
    have hle := lebReadUnsignedAux_rest_le (l.take 10) 0 0 w rem hr
    have h5 : (l.take 10).length = min 10 l.length := List.length_take 10 l
    have : rest.length = rem.length + (l.length - 10) := by
      rw [← h2.2]; simp
    omega

/-- Reading a frame of continuation-only bytes runs off its end. -/
theorem lebReadUnsignedAux_all_cont (fr : Bytes) :
    ∀ shift acc, (∀ b ∈ fr, 128 ≤ b) → shift + 7 * fr.length ≤ 63 →
      lebReadUnsignedAux shift acc fr = .error (err (.Leb128 .ioError)) := by
  induction fr with
  | nil => intro shift acc _ _; rfl
  | cons b rest ih =>
    intro shift acc hall hb
    have hblen : shift ≠ 63 := by simp at hb; omega
    have hbc : 128 ≤ b := hall b (List.mem_cons_self b rest)
    rw [lebReadUnsignedAux, if_neg (by tauto), if_neg (by omega)]
    exact ih (shift + 7) _ (fun x hx => hall x (List.mem_cons_of_mem b hx)) (by simp at hb ⊢; omega)

/-- A LEB128 sequence longer than the `u32` take limit fails instead of
being consumed further. -/
theorem decodeU32_all_cont (l : Bytes) (hall : ∀ b ∈ l.take 5, 128 ≤ b) :
    decodeU32 l = .error (err (.Leb128 .ioError)) := by
  have hlen : (l.take 5).length ≤ 5 := by simp
  rw [decodeU32, lebReadUnsignedAux_all_cont (l.take 5) 0 0 hall (by omega)]

/-- A decoded value exceeding the `u32` width is a `Leb128` overflow. -/
theorem decodeU32_overflow (l : Bytes) (v : Nat) (rem : Bytes)
    (h : lebReadUnsignedAux 0 0 (l.take 5) = .ok (v, rem)) (hv : 2 ^ 32 ≤ v) :
    decodeU32 l = .error (err (.Leb128 .overflow)) := by
  rw [decodeU32, h]
  show (if v < 2 ^ 32 then _ else _) = _
  rw [if_neg (by omega)]

/-- A `u64` LEB128 sequence whose tenth byte carries more than one bit is an
overflow (the `leb128` crate's shift-63 check). -/
theorem decodeU64_ten_cont_overflow :
    decodeU64 (List.replicate 9 0x80 ++ [0x02]) = .error (err (.Leb128 .overflow)) := rfl

/-- C7: decoding a `u32` or `u64` reads at most `⌈bits/7⌉ + 1` bytes from
the reader — the take limits are in fact the tighter `bits/7 + 1`, i.e. 5
and 10 bytes (first two conjuncts) — so a longer LEB128 sequence fails
rather than being consumed further (third and fifth conjuncts), and a
decoded LEB128 value exceeding the target width fails with a
`Leb128(Overflow)` error (fourth conjunct, for values above `2^32 − 1`
decoded as `u32`). -/
theorem leb128_read_bounds :
    (∀ (l : Bytes) (v : Nat) (rest : Bytes), decodeU32 l = .ok (v, rest) →
      l.length - rest.length ≤ 5) ∧
    (∀ (l : Bytes) (v : Nat) (rest : Bytes), decodeU64 l = .ok (v, rest) →
      l.length - rest.length ≤ 10) ∧
    (∀ l : Bytes, (∀ b ∈ l.take 5, 128 ≤ b) →
      decodeU32 l = .error (err (.Leb128 .ioError))) ∧
    (∀ (l : Bytes) (v : Nat) (rem : Bytes),
      lebReadUnsignedAux 0 0 (l.take 5) = .ok (v, rem) → 2 ^ 32 ≤ v →
      decodeU32 l = .error (err (.Leb128 .overflow))) ∧
    decodeU64 (List.replicate 9 0x80 ++ [0x02]) = .error (err (.Leb128 .overflow)) :=
  ⟨decodeU32_consumed, decodeU64_consumed, decodeU32_all_cont, decodeU32_overflow,
   decodeU64_ten_cont_overflow⟩

/-- C7 witness: concrete reads within the limits, a stream of continuation
bytes failing, and the five-byte encoding of `2^32` overflowing `u32`. -/
theorem leb128_read_bounds_witness :
    (decodeU32 [0x80, 0x01, 0xAA] = .ok (128, [0xAA]) ∧
      ([0x80, 0x01, 0xAA] : Bytes).length - ([0xAA] : Bytes).length ≤ 5) ∧
    (decodeU64 [0x07] = .ok (7, []) ∧ ([0x07] : Bytes).length - ([] : Bytes).length ≤ 10) ∧
    ((∀ b ∈ ([0x80, 0x80, 0x80, 0x80, 0x80, 0x00] : Bytes).take 5, 128 ≤ b) ∧
      decodeU32 [0x80, 0x80, 0x80, 0x80, 0x80, 0x00] = .error (err (.Leb128 .ioError))) ∧
    (lebReadUnsignedAux 0 0 (([0x80, 0x80, 0x80, 0x80, 0x10] : Bytes).take 5) =
        .ok (4294967296, []) ∧
      decodeU32 [0x80, 0x80, 0x80, 0x80, 0x10] = .error (err (.Leb128 .overflow))) :=
  ⟨⟨rfl, leb128_read_bounds.1 [0x80, 0x01, 0xAA] 128 [0xAA] rfl⟩,
   ⟨rfl, leb128_read_bounds.2.1 [0x07] 7 [] rfl⟩,
   ⟨by decide, leb128_read_bounds.2.2.1 [0x80, 0x80, 0x80, 0x80, 0x80, 0x00] (by decide)⟩,
   ⟨rfl, leb128_read_bounds.2.2.2.1 [0x80, 0x80, 0x80, 0x80, 0x10] 4294967296 [] rfl
      (by norm_num)⟩⟩

/-- C8: decoding a `Blob<T>` (via `RawBlob`'s framing) reads a `u32` byte
length and then exactly that many bytes — the first conjunct shows a fully
consumed frame succeeding and advancing the stream by exactly the length,
and the fourth shows the lazy `Blob` storing exactly the framed bytes —
while a successful payload decode that leaves bytes unconsumed inside the
framed region fails with `UnrecognizedData` (second conjunct; the third is
the same check in `decode_raw`/`lazy_transform`). -/
theorem blob_framed_decode :
    (∀ (α : Type) (dec : Bytes → DecRes α) (l : Bytes) (size : Nat) (l1 : Bytes) (v : α),
      decodeU32 l = .ok (size, l1) → size ≤ l1.length → dec (l1.take size) = .ok (v, []) →
      decodeFramed dec l = .ok (v, l1.drop size)) ∧
    (∀ (α : Type) (dec : Bytes → DecRes α) (l : Bytes) (size : Nat) (l1 : Bytes) (v : α)
        (rest : Bytes),
      decodeU32 l = .ok (size, l1) → dec (l1.take size) = .ok (v, rest) → rest ≠ [] →
      decodeFramed dec l = .error (err .UnrecognizedData)) ∧
    (∀ (α : Type) (dec : Bytes → DecRes α) (raw : Bytes) (v : α) (rest : Bytes),
      dec raw = .ok (v, rest) → rest ≠ [] →
      decodeRaw dec raw = .error (err .UnrecognizedData)) ∧
    (∀ (α : Type) (l : Bytes) (size : Nat) (l1 : Bytes),
      decodeU32 l = .ok (size, l1) → size ≤ l1.length →
      decodeBlob (α := α) l = .ok (⟨.FromInput (l1.take size)⟩, l1.drop size)) := by
  have hframe : ∀ (α : Type) (dec : Bytes → DecRes α) (l : Bytes) (size : Nat) (l1 : Bytes)
      (v : α) (rest : Bytes), decodeU32 l = .ok (size, l1) → dec (l1.take size) = .ok (v, rest) →
      decodeFramed dec l =
        if rest.isEmpty ∧ (l1.take size).length = size then .ok (v, l1.drop size)
        else .error (err .UnrecognizedData) := by
    intro α dec l size l1 v rest h1 h2
    simp only [decodeFramed, h1, h2]
  refine ⟨?_, ?_, ?_, ?_⟩
  · intro α dec l size l1 v h1 hsz h2
    rw [hframe α dec l size l1 v [] h1 h2, if_pos ⟨rfl, by simp [List.length_take]; omega⟩]
  · intro α dec l size l1 v rest h1 h2 hrest
    rw [hframe α dec l size l1 v rest h1 h2, if_neg]
    simp [List.isEmpty_iff]
    intro h; exact absurd h hrest
  · intro α dec raw v rest h hrest
    simp only [decodeRaw, h]
    rw [if_neg (by simpa [List.isEmpty_iff] using hrest)]
  · intro α l size l1 h1 hsz
    rw [decodeBlob]
    have h2 : decodeVecU8 (l1.take size) = .ok (l1.take size, []) := rfl
    rw [hframe Bytes decodeVecU8 l size l1 (l1.take size) [] h1 h2,
      if_pos ⟨rfl, by simp [List.length_take]; omega⟩]

/-- C8 witness: a two-byte frame consumed exactly, the same frame with a
one-byte payload decoder leaving a leftover byte, the `decode_raw` variant
of that failure, and the lazy blob storing the framed bytes. -/
theorem blob_framed_decode_witness :
    (decodeU32 [2, 7, 7, 9] = .ok (2, [7, 7, 9]) ∧ (2 : Nat) ≤ ([7, 7, 9] : Bytes).length ∧
      decodeVecU8 (([7, 7, 9] : Bytes).take 2) = .ok ([7, 7], []) ∧
      decodeFramed decodeVecU8 [2, 7, 7, 9] = .ok ([7, 7], [9])) ∧
    (decodeU8 (([7, 7, 9] : Bytes).take 2) = .ok (7, [7]) ∧
      decodeFramed decodeU8 [2, 7, 7, 9] = .error (err .UnrecognizedData)) ∧
    (decodeU8 [7, 7] = .ok (7, [7]) ∧
      decodeRaw decodeU8 [7, 7] = .error (err .UnrecognizedData)) ∧
    decodeBlob (α := Nat) [2, 7, 7, 9] = .ok (⟨.FromInput [7, 7]⟩, [9]) :=
  ⟨⟨rfl, by norm_num, rfl,
    blob_framed_decode.1 Bytes decodeVecU8 [2, 7, 7, 9] 2 [7, 7, 9] [7, 7] rfl (by norm_num) rfl⟩,
   ⟨rfl, blob_framed_decode.2.1 Nat decodeU8 [2, 7, 7, 9] 2 [7, 7, 9] 7 [7] rfl rfl (by simp)⟩,
   ⟨rfl, blob_framed_decode.2.2.1 Nat decodeU8 [7, 7] 7 [7] rfl (by simp)⟩,
   blob_framed_decode.2.2.2 Nat [2, 7, 7, 9] 2 [7, 7, 9] rfl (by norm_num)⟩

/-- An `END` byte at depth 0 decodes to the `End` instruction. -/
theorem decodeInstrWithDiscriminant_end (l : Bytes) :
    decodeInstrWithDiscriminant 0x0B l = .ok (.End, l) := rfl

/-- The bytes `0x02 0x40` decode to a `BLOCK` opener with empty type. -/
theorem decodeInstrWithDiscriminant_block (l : Bytes) :
    decodeInstrWithDiscriminant 0x02 (0x40 :: l) = .ok (.BlockStart .Empty, l) := rfl

/-- `d + 1` `END` bytes at depth `d` decode to `d` `End` instructions and
terminate the stream at the final `END`. -/
theorem decodeInstrSeqAux_ends (d : Nat) :
    ∀ (fuel idx : Nat) (l : Bytes), d + 1 ≤ fuel →
      decodeInstrSeqAux fuel d idx (List.replicate (d + 1) 0x0B ++ l) =
        .ok (List.replicate d Instruction.End, l) := by
  induction d with
  | zero =>
    intro fuel idx l hf
    obtain ⟨f, rfl⟩ : ∃ f, fuel = f + 1 := ⟨fuel - 1, by omega⟩
    rw [decodeInstrSeqAux]
    simp only [List.replicate, List.cons_append, List.nil_append, decodeU8]
    simp
  | succ d ih =>
    intro fuel idx l hf
    obtain ⟨f, rfl⟩ : ∃ f, fuel = f + 1 := ⟨fuel - 1, by omega⟩
    rw [decodeInstrSeqAux]
    simp only [List.replicate, List.cons_append, decodeU8]
    rw [if_neg (by simp)]
    simp only [decodeInstrWithDiscriminant_end, inPathE]
    norm_num
    have hih := ih f (idx + 1) l (by omega)
    rw [List.replicate_succ, List.cons_append] at hih
    rw [hih]

/-- `n` `BLOCK` openers followed by `n + d + 1` `END` bytes decode at depth
`d` to the corresponding instruction list, terminating at the last `END`. -/
theorem decodeInstrSeqAux_blocks (n : Nat) :
    ∀ (d fuel idx : Nat) (l : Bytes), 2 * n + d + 1 ≤ fuel →
      decodeInstrSeqAux fuel d idx
          (blockOpeners n ++ List.replicate (n + d + 1) 0x0B ++ l) =
        .ok (List.replicate n (Instruction.BlockStart .Empty) ++
          List.replicate (n + d) Instruction.End, l) := by
  induction n with
  | zero =>
    intro d fuel idx l hf
    simpa [blockOpeners] using decodeInstrSeqAux_ends d fuel idx l (by omega)
  | succ n ih =>
    intro d fuel idx l hf
    obtain ⟨f, rfl⟩ : ∃ f, fuel = f + 1 := ⟨fuel - 1, by omega⟩
    rw [blockOpeners, decodeInstrSeqAux]
    simp only [List.cons_append, decodeU8]
    rw [if_neg (by simp)]
    simp only [decodeInstrWithDiscriminant_block, inPathE]
    norm_num
    have hih := ih (d + 1) f (idx + 1) l (by omega)
    have harr : n + (d + 1) + 1 = n + 1 + d + 1 := by omega
    have harr2 : n + (d + 1) = n + 1 + d := by omega
    rw [harr, harr2, List.append_assoc] at hih
    rw [hih]
    simp [List.replicate_succ]

/-- Only `d` `END` bytes at depth `d` run off the end of the stream: the
final `END` is consumed as a depth decrement, not a terminator. -/
theorem decodeInstrSeqAux_ends_trunc (d : Nat) :
    ∀ (fuel idx : Nat), decodeInstrSeqAux fuel d idx (List.replicate d 0x0B) =
      .error (err .Io) := by
  induction d with
  | zero =>
    intro fuel idx
    cases fuel with
    | zero => rfl
    | succ f => rfl
  | succ d ih =>
    intro fuel idx
    cases fuel with
    | zero => rfl
    | succ f =>
      rw [List.replicate_succ, decodeInstrSeqAux]
      simp only [decodeU8]
      rw [if_neg (by simp)]
      simp only [decodeInstrWithDiscriminant_end, inPathE]
      norm_num
      rw [ih f (idx + 1)]

/-- `n` `BLOCK` openers with only `n + d` `END` bytes hit end-of-input. -/
theorem decodeInstrSeqAux_blocks_trunc (n : Nat) :
    ∀ (d fuel idx : Nat),
      decodeInstrSeqAux fuel d idx (blockOpeners n ++ List.replicate (n + d) 0x0B) =
        .error (err .Io) := by
  induction n with
  | zero =>
    intro d fuel idx
    simpa [blockOpeners] using decodeInstrSeqAux_ends_trunc d fuel idx
  | succ n ih =>
    intro d fuel idx
    cases fuel with
    | zero => rfl
    | succ f =>
      rw [blockOpeners, List.cons_append, List.cons_append, decodeInstrSeqAux]
      simp only [decodeU8]
      rw [if_neg (by simp)]
      simp only [decodeInstrWithDiscriminant_block, inPathE]
      norm_num
      have hih := ih (d + 1) f (idx + 1)
      have harr : n + (d + 1) = n + 1 + d := by omega
      rw [harr] at hih
      rw [hih]

/-- `n` `BLOCK (empty)` openers occupy `2n` bytes. -/
theorem blockOpeners_length (n : Nat) : (blockOpeners n).length = 2 * n := by
  induction n with
  | zero => rfl
  | succ n ih => simp [blockOpeners, ih]; omega

/-- Encoding `n` `End` instructions emits `n + 1` `END` bytes (the extra
one is the stream terminator appended by the `[Instruction]` encoder). -/
theorem encodeInstrSeq_ends (n : Nat) :
    encodeInstrSeq (List.replicate n Instruction.End) = .ok (List.replicate (n + 1) 0x0B) := by
  induction n with
  | zero => rfl
  | succ n ih =>
    rw [List.replicate_succ, encodeInstrSeq]
    show (do
      let h ← encodeInstr .End
      let t ← encodeInstrSeq (List.replicate n Instruction.End)
      (.ok (h ++ t) : EncRes)) = _
    rw [ih]
    show Except.ok ([0x0B] ++ List.replicate (n + 1) 0x0B) = _
    rw [List.replicate_succ]
    rfl

/-- Encoding `n` `BLOCK (empty)` openers prepends their `0x02 0x40` byte
pairs to the encoding of the remaining instructions. -/
theorem encodeInstrSeq_blocks (n : Nat) :
    ∀ (rest : List Instruction) (bs : Bytes), encodeInstrSeq rest = .ok bs →
      encodeInstrSeq (List.replicate n (Instruction.BlockStart .Empty) ++ rest) =
        .ok (blockOpeners n ++ bs) := by
  induction n with
  | zero => intro rest bs h; simpa [blockOpeners] using h
  | succ n ih =>
    intro rest bs h
    rw [List.replicate_succ, List.cons_append, encodeInstrSeq]
    show (do
      let hh ← encodeInstr (.BlockStart .Empty)
      let t ← encodeInstrSeq (List.replicate n (Instruction.BlockStart .Empty) ++ rest)
      (.ok (hh ++ t) : EncRes)) = _
    rw [ih rest bs h]
    show Except.ok ((0x02 :: encodeBlockType .Empty) ++ (blockOpeners n ++ bs)) = _
    rw [blockOpeners]
    rfl

/-- An expression of `n` `BLOCK` openers and only `n` `END` bytes fails
with end-of-input: the last `END` closed a block instead of terminating. -/
theorem decodeExpression_blocks_trunc (n : Nat) :
    decodeExpression (blockOpeners n ++ List.replicate n 0x0B) = .error (err .Io) := by
  have h := decodeInstrSeqAux_blocks_trunc n 0
    ((blockOpeners n ++ List.replicate n 0x0B).length + 1) 0
  rw [decodeExpression]
  simpa using h

/-- C2 counterexample: the expression of 100,000 `BLOCK (empty)` openers
followed by exactly 100,000 `END` bytes does NOT decode successfully — the
decoder consumes every `END` as a depth decrement and hits end-of-input
still waiting for the terminating `END` at depth 0. -/
theorem deep_nesting_without_terminator_fails :
    decodeExpression (blockOpeners 100000 ++ List.replicate 100000 0x0B) =
      .error (err .Io) := decodeExpression_blocks_trunc 100000

/-- At depth 0 an `END` byte terminates the stream, yielding no item. -/
theorem dnr_end0 : ∀ (fuel idx : Nat) (l : Bytes),
    decodeInstrSeqAux (fuel + 1) 0 idx (0x0B :: l) = .ok ([], l) :=
  fun _ _ _ => rfl

/-- At positive depth an `END` byte decrements the depth and keeps reading. -/
theorem dnr_endpos : ∀ (fuel d idx : Nat) (l : Bytes) (res : List Instruction) (r : Bytes),
    decodeInstrSeqAux fuel d (idx + 1) l = .ok (res, r) →
    decodeInstrSeqAux (fuel + 1) (d + 1) idx (0x0B :: l) = .ok (.End :: res, r) := by
  intro fuel d idx l res r h
  rw [decodeInstrSeqAux]
  simp only [decodeU8]
  rw [if_neg (by simp)]
  simp only [decodeInstrWithDiscriminant_end, inPathE]
  norm_num
  rw [h]

/-- A `BLOCK` opener increments the depth and keeps reading. -/
theorem dnr_block : ∀ (fuel d idx : Nat) (l : Bytes) (res : List Instruction) (r : Bytes),
    decodeInstrSeqAux fuel (d + 1) (idx + 1) l = .ok (res, r) →
    decodeInstrSeqAux (fuel + 1) d idx (0x02 :: 0x40 :: l) = .ok (.BlockStart .Empty :: res, r) := by
  intro fuel d idx l res r h
  rw [decodeInstrSeqAux]
  simp only [decodeU8]
  rw [if_neg (by simp)]
  simp only [decodeInstrWithDiscriminant_block, inPathE]
  norm_num
  rw [h]

/-- `n` `BLOCK` openers with `n + 1` `END` bytes decode to the expected
`2n`-instruction expression with nothing left over. -/
theorem decodeExpression_blocks (n : Nat) :
    decodeExpression (blockOpeners n ++ List.replicate (n + 1) 0x0B) =
      .ok (List.replicate n (Instruction.BlockStart .Empty) ++
        List.replicate n Instruction.End, []) := by
  have h := decodeInstrSeqAux_blocks n 0
    ((blockOpeners n ++ List.replicate (n + 1) 0x0B).length + 1) 0 []
    (by rw [List.length_append, blockOpeners_length, List.length_replicate]; omega)
  rw [decodeExpression]
  simpa using h

set_option maxRecDepth 2000 in
/-- C2 (amended): the expression bytes must additionally carry the
terminating `END` at depth 0 — so 100,000 `BLOCK (empty)` openers followed
by 100,001 `END` bytes decode successfully to an instruction vector of
length 200,000, re-encoding that vector reproduces the input bytes
identically, and the decoder tracks nesting with an integer depth:
terminating on `END` at depth 0, decrementing on `END` at positive depth,
and incrementing on a block opener. -/
theorem deep_nesting_roundtrip :
    decodeExpression (blockOpeners 100000 ++ List.replicate 100001 0x0B) =
      .ok (List.replicate 100000 (Instruction.BlockStart .Empty) ++
        List.replicate 100000 Instruction.End, []) ∧
    (List.replicate 100000 (Instruction.BlockStart .Empty) ++
      List.replicate 100000 Instruction.End).length = 200000 ∧
    encodeInstrSeq (List.replicate 100000 (Instruction.BlockStart .Empty) ++
      List.replicate 100000 Instruction.End) =
      .ok (blockOpeners 100000 ++ List.replicate 100001 0x0B) ∧
    (∀ (fuel idx : Nat) (l : Bytes),
      decodeInstrSeqAux (fuel + 1) 0 idx (0x0B :: l) = .ok ([], l)) ∧
    (∀ (fuel d idx : Nat) (l : Bytes) (res : List Instruction) (r : Bytes),
      decodeInstrSeqAux fuel d (idx + 1) l = .ok (res, r) →
      decodeInstrSeqAux (fuel + 1) (d + 1) idx (0x0B :: l) = .ok (.End :: res, r)) ∧
    (∀ (fuel d idx : Nat) (l : Bytes) (res : List Instruction) (r : Bytes),
      decodeInstrSeqAux fuel (d + 1) (idx + 1) l = .ok (res, r) →
      decodeInstrSeqAux (fuel + 1) d idx (0x02 :: 0x40 :: l) =
        .ok (.BlockStart .Empty :: res, r)) := by
  refine ⟨decodeExpression_blocks 100000, ?_, ?_, dnr_end0, dnr_endpos, dnr_block⟩
  · rw [List.length_append, List.length_replicate, List.length_replicate]
  · exact encodeInstrSeq_blocks 100000 (List.replicate 100000 Instruction.End)
      (List.replicate 100001 0x0B) (encodeInstrSeq_ends 100000)

/-- C2 witness: the depth-tracking conjuncts instantiated on concrete
one-block streams. -/
theorem deep_nesting_roundtrip_witness :
    (decodeInstrSeqAux 1 0 1 [0x0B] = .ok ([], []) ∧
      decodeInstrSeqAux 2 1 0 [0x0B, 0x0B] = .ok ([Instruction.End], [])) ∧
    (decodeInstrSeqAux 2 1 1 [0x0B, 0x0B] = .ok ([Instruction.End], []) ∧
      decodeInstrSeqAux 3 0 0 [0x02, 0x40, 0x0B, 0x0B] =
        .ok ([Instruction.BlockStart .Empty, Instruction.End], [])) :=
  ⟨⟨rfl, deep_nesting_roundtrip.2.2.2.2.1 1 0 0 [0x0B] [] [] rfl⟩,
   ⟨rfl, deep_nesting_roundtrip.2.2.2.2.2 2 0 0 [0x0B, 0x0B] [Instruction.End] [] rfl⟩⟩

/-- `Ord::cmp` on kinds is `Greater` exactly on strictly larger logical
order. -/
theorem kind_cmp_gt_iff (a b : Kind) : a.cmp b = .gt ↔ b.orderedRepr < a.orderedRepr := by
  rw [Kind.cmp]
  exact Nat.compare_eq_gt

/-- The order tracker accepts a custom section without advancing. -/
theorem tryAdd_custom (t : SectionOrderTracker) (s : Section) (h : s.kind = .Custom) :
    t.tryAdd s = .ok t := by
  rw [SectionOrderTracker.tryAdd, if_pos h]

/-- The order tracker rejects a non-custom section of kind ≤ the last
seen kind with a `SectionOutOfOrder` carrying both kinds. -/
theorem tryAdd_out_of_order (t : SectionOrderTracker) (s : Section)
    (hne : s.kind ≠ .Custom) (hle : (s.kind).orderedRepr ≤ (t.last_kind).orderedRepr) :
    t.tryAdd s = .error { current := s.kind, prev := t.last_kind } := by
  rw [SectionOrderTracker.tryAdd, if_neg hne, if_neg]
  rw [kind_cmp_gt_iff]
  omega

/-- The order tracker advances to a strictly larger non-custom kind. -/
theorem tryAdd_advance (t : SectionOrderTracker) (s : Section)
    (hne : s.kind ≠ .Custom) (hgt : (t.last_kind).orderedRepr < (s.kind).orderedRepr) :
    t.tryAdd s = .ok ⟨s.kind⟩ := by
  rw [SectionOrderTracker.tryAdd, if_neg hne, if_pos]
  rw [kind_cmp_gt_iff]
  omega

/-- C3: both while decoding and while encoding a section list, after a
non-custom section of logical kind `K` has been seen, a non-custom section
whose kind is ≤ `K` fails with a `SectionOutOfOrder` error carrying the
previous and current kinds (second, fourth and sixth conjuncts), custom
sections are always accepted and never advance the tracked kind (first,
fifth and seventh conjuncts), and a strictly larger kind advances the
tracker (third conjunct). -/
theorem section_order_enforced :
    (∀ (t : SectionOrderTracker) (s : Section), s.kind = .Custom → t.tryAdd s = .ok t) ∧
    (∀ (t : SectionOrderTracker) (s : Section), s.kind ≠ .Custom →
      (s.kind).orderedRepr ≤ (t.last_kind).orderedRepr →
      t.tryAdd s = .error { current := s.kind, prev := t.last_kind }) ∧
    (∀ (t : SectionOrderTracker) (s : Section), s.kind ≠ .Custom →
      (t.last_kind).orderedRepr < (s.kind).orderedRepr → t.tryAdd s = .ok ⟨s.kind⟩) ∧
    (∀ (t : SectionOrderTracker) (s : Section) (rest : List Section), s.kind ≠ .Custom →
      (s.kind).orderedRepr ≤ (t.last_kind).orderedRepr →
      encodeSectionsAux t (s :: rest) = .error (.SectionOutOfOrder t.last_kind s.kind)) ∧
    (∀ (t : SectionOrderTracker) (s : Section) (rest : List Section), s.kind = .Custom →
      encodeSectionsAux t (s :: rest) = (do
        let h ← encodeSection s
        let tl ← encodeSectionsAux t rest
        (.ok (h ++ tl) : EncRes))) ∧
    (∀ (fuel : Nat) (t : SectionOrderTracker) (idx d : Nat) (l1 : Bytes) (s : Section)
        (l2 : Bytes),
      decodeSectionWithDiscriminant d l1 = .ok (s, l2) → s.kind ≠ .Custom →
      (s.kind).orderedRepr ≤ (t.last_kind).orderedRepr →
      decodeSectionsAux (fuel + 1) t idx (d :: l1) =
        .error ⟨[.Index idx], .SectionOutOfOrder t.last_kind s.kind⟩) ∧
    (∀ (fuel : Nat) (t : SectionOrderTracker) (idx d : Nat) (l1 : Bytes) (s : Section)
        (l2 : Bytes),
      decodeSectionWithDiscriminant d l1 = .ok (s, l2) → s.kind = .Custom →
      decodeSectionsAux (fuel + 1) t idx (d :: l1) =
        (match decodeSectionsAux fuel t (idx + 1) l2 with
         | .ok (ss, r) => .ok (s :: ss, r)
         | .error e => .error e)) := by
  refine ⟨tryAdd_custom, tryAdd_out_of_order, tryAdd_advance, ?_, ?_, ?_, ?_⟩
  · intro t s rest hne hle
    rw [encodeSectionsAux, tryAdd_out_of_order t s hne hle]
  · intro t s rest h
    rw [encodeSectionsAux, tryAdd_custom t s h]
  · intro fuel t idx d l1 s l2 hdec hne hle
    rw [decodeSectionsAux]
    simp only [decodeOptionU8, hdec, tryAdd_out_of_order t s hne hle, inPathE]
    rfl
  · intro fuel t idx d l1 s l2 hdec hcust
    rw [decodeSectionsAux]
    simp only [decodeOptionU8, hdec, tryAdd_custom t s hcust, inPathE]
    cases hres : decodeSectionsAux fuel t (idx + 1) l2 with
    | error e => rfl
    | ok p => rfl

/-- C3 witness: a tracker at `Function` accepting a custom section
unchanged, rejecting an `Import` section in both the encoder and decoder
with `SectionOutOfOrder { prev := Function, current := Import }`, and the
end-to-end decode of a module placing an Import section after a Function
section failing the same way. -/
theorem section_order_enforced_witness :
    ((Section.Custom ⟨.FromInput []⟩).kind = .Custom ∧
      SectionOrderTracker.tryAdd ⟨.Function⟩ (Section.Custom ⟨.FromInput []⟩) =
        .ok ⟨.Function⟩) ∧
    ((Section.Import ⟨.FromInput []⟩).kind ≠ .Custom ∧
      SectionOrderTracker.tryAdd ⟨.Function⟩ (Section.Import ⟨.FromInput []⟩) =
        .error { current := .Import, prev := .Function }) ∧
    encodeSectionsAux ⟨.Function⟩ [Section.Import ⟨.FromInput []⟩] =
      .error (.SectionOutOfOrder .Function .Import) ∧
    (decodeSectionWithDiscriminant 2 [0] = .ok (Section.Import ⟨.FromInput []⟩, []) ∧
      decodeSectionsAux 1 ⟨.Function⟩ 0 [2, 0] =
        .error ⟨[.Index 0], .SectionOutOfOrder .Function .Import⟩) ∧
    decodeModule (magicBytes ++ [3, 1, 0, 2, 1, 0]) =
      .error ⟨[.Index 1, .Name "sections", .Variant "ModuleRepr"],
        .SectionOutOfOrder .Function .Import⟩ :=
  ⟨⟨rfl, section_order_enforced.1 ⟨.Function⟩ (Section.Custom ⟨.FromInput []⟩) rfl⟩,
   ⟨by decide, section_order_enforced.2.1 ⟨.Function⟩ (Section.Import ⟨.FromInput []⟩)
      (by decide) (by decide)⟩,
   section_order_enforced.2.2.2.1 ⟨.Function⟩ (Section.Import ⟨.FromInput []⟩) []
     (by decide) (by decide),
   ⟨rfl, section_order_enforced.2.2.2.2.2.1 0 ⟨.Function⟩ 0 2 [0]
      (Section.Import ⟨.FromInput []⟩) [] rfl (by decide) (by decide)⟩,
   rfl⟩

end Wasmbin
